import Mathlib

/-! # Adafruit_LiquidCrystal: shadow-buffer HD44780 driver

A shallow embedding of `src/Adafruit_LiquidCrystal.cpp`.

* The driver object is the record `LCD` together with the byte `_SPIbuff`; every member
  function becomes a function on a state `St W` holding the object and the state `W`
  of everything outside it.
* The outside (pins, I2C expander, SPI shift register, `rand`) is reached only through
  a `Host W`: `out` performs a call that returns nothing, `ask` performs a call that
  returns a number. Theorems stated for every `Host` hold whatever the pins read.
* `uint8_t` values are natural numbers reduced `% 256` where the source can overflow.
* A store outside the 80-cell shadow array, a read outside the 4-entry row tables and
  a busy-wait loop that outlives its fuel are the three `Fault`s; `fuel` bounds the
  number of polls of each `while (isBusy())` loop.
* `Serial` diagnostics and the `micros()` stopwatch of `checkDisplay` touch neither the
  object nor the LCD pins and are left out.
-/

namespace AdafruitLiquidCrystal

/-! ## Constants -/

/-- Arduino core pin level. -/
def LOW : Nat := 0
/-- Arduino core pin level. -/
def HIGH : Nat := 1
/-- Arduino core pin mode. -/
def INPUT : Nat := 0
/-- Arduino core pin mode. -/
def OUTPUT : Nat := 1
/-- Arduino core pin mode. -/
def INPUT_PULLUP : Nat := 2
/-- Arduino core bit order of `shiftOut`. -/
def MSBFIRST : Nat := 1

/-- Modelled from the spec: `Adafruit_LiquidCrystal.h` is not among the sources; the
command codes are those of the HD44780 instruction set the spec refers to. -/
def LCD_CLEARDISPLAY : Nat := 0x01
/-- Modelled from the spec: HD44780 instruction code (header not among the sources). -/
def LCD_RETURNHOME : Nat := 0x02
/-- Modelled from the spec: HD44780 instruction code (header not among the sources). -/
def LCD_ENTRYMODESET : Nat := 0x04
/-- Modelled from the spec: HD44780 instruction code (header not among the sources). -/
def LCD_DISPLAYCONTROL : Nat := 0x08
/-- Modelled from the spec: HD44780 instruction code (header not among the sources). -/
def LCD_CURSORSHIFT : Nat := 0x10
/-- Modelled from the spec: HD44780 instruction code (header not among the sources). -/
def LCD_FUNCTIONSET : Nat := 0x20
/-- Modelled from the spec: HD44780 instruction code (header not among the sources). -/
def LCD_SETCGRAMADDR : Nat := 0x40
/-- Modelled from the spec: HD44780 instruction code (header not among the sources);
the DDRAM-set-address command is `0x80 | address`. -/
def LCD_SETDDRAMADDR : Nat := 0x80

/-- Modelled from the spec: entry-mode flag (header not among the sources). -/
def LCD_ENTRYRIGHT : Nat := 0x00
/-- Modelled from the spec: entry-mode flag (header not among the sources). -/
def LCD_ENTRYLEFT : Nat := 0x02
/-- Modelled from the spec: entry-mode flag (header not among the sources). -/
def LCD_ENTRYSHIFTINCREMENT : Nat := 0x01
/-- Modelled from the spec: entry-mode flag (header not among the sources). -/
def LCD_ENTRYSHIFTDECREMENT : Nat := 0x00

/-- Modelled from the spec: display-control flag (header not among the sources). -/
def LCD_DISPLAYON : Nat := 0x04
/-- Modelled from the spec: display-control flag (header not among the sources). -/
def LCD_DISPLAYOFF : Nat := 0x00
/-- Modelled from the spec: display-control flag (header not among the sources). -/
def LCD_CURSORON : Nat := 0x02
/-- Modelled from the spec: display-control flag (header not among the sources). -/
def LCD_CURSOROFF : Nat := 0x00
/-- Modelled from the spec: display-control flag (header not among the sources). -/
def LCD_BLINKON : Nat := 0x01
/-- Modelled from the spec: display-control flag (header not among the sources). -/
def LCD_BLINKOFF : Nat := 0x00

/-- Modelled from the spec: cursor-shift flag (header not among the sources). -/
def LCD_DISPLAYMOVE : Nat := 0x08
/-- Modelled from the spec: cursor-shift flag (header not among the sources). -/
def LCD_MOVERIGHT : Nat := 0x04
/-- Modelled from the spec: cursor-shift flag (header not among the sources). -/
def LCD_MOVELEFT : Nat := 0x00

/-- Modelled from the spec: function-set flag (header not among the sources). -/
def LCD_8BITMODE : Nat := 0x10
/-- Modelled from the spec: function-set flag (header not among the sources). -/
def LCD_4BITMODE : Nat := 0x00
/-- Modelled from the spec: function-set flag (header not among the sources). -/
def LCD_2LINE : Nat := 0x08
/-- Modelled from the spec: function-set flag (header not among the sources). -/
def LCD_1LINE : Nat := 0x00
/-- Modelled from the spec: function-set flag (header not among the sources). -/
def LCD_5x10DOTS : Nat := 0x04
/-- Modelled from the spec: function-set flag (header not among the sources). -/
def LCD_5x8DOTS : Nat := 0x00

/-- Modelled from the spec: the shadow buffer is "sized to 80, the 4×20 maximum"
(header not among the sources). -/
def _MAX_DDRAM_SIZE : Nat := 80
/-- Modelled from the spec: the "blank sentinel" a cleared shadow cell holds; the header
is not among the sources, the value is the blank the controller itself clears DDRAM
to. No theorem below depends on the value chosen. -/
def _BLANK_CHAR : Nat := 0x20
/-- Modelled from the spec: register-select level of a data transfer (header not among
the sources); `write` sends its byte with `HIGH` and the spec has it recorded. -/
def _DDRAM_MODE : Nat := 1
/-- Modelled from the spec: register-select level of an instruction transfer (header
not among the sources). -/
def _INSTR_MODE : Nat := 0
/-- Modelled from the spec: settle time before a read (header not among the sources);
delays carry no behaviour here, so the value is immaterial. -/
def _read_delay_time : Nat := 100

/-! ## The outside world -/

/-- Calls into the host that return nothing. -/
inductive Eff where
  | pinMode (pin mode : Nat)
  | digitalWrite (pin level : Nat)
  | delayMicroseconds (us : Nat)
  | delay (ms : Nat)
  | shiftOut (dataPin clockPin bitOrder value : Nat)
  | noInterrupts
  | interrupts
  | i2cBegin (addr : Nat)
  | i2cPinMode (pin mode : Nat)
  | i2cDigitalWrite (pin level : Nat)
  | i2cWritePort (value : Nat)
  deriving DecidableEq

/-- Calls into the host that return a number. -/
inductive Ask where
  | digitalRead (pin : Nat)
  | i2cReadPort
  | rand
  deriving DecidableEq

/-- The host primitives, acting on a world state `W`. -/
structure Host (W : Type) where
  out : Eff → W → W
  ask : Ask → W → Nat × W

/-- What the embedding reports instead of undefined or non-terminating behaviour. -/
inductive Fault where
  /-- `while (isBusy())` was still busy when the fuel ran out. -/
  | busyForever
  /-- Function `send` stored at `_expecteddramcontents[index]` with `index ≥ 80`. -/
  | shadowOverrun (index : Nat)
  /-- Function `setCursor` read `row_offsets[row]` with `row ≥ 4`. -/
  | rowTableOverrun (row : Nat)
  deriving DecidableEq

/-! ## The driver object -/

/-- The data members of `Adafruit_LiquidCrystal` that the source file uses, all but
`_SPIbuff`. -/
structure LCD where
  _rs_pin : Nat
  _rw_pin : Nat
  _enable_pin : Nat
  _data_pins : List Nat
  _i2cAddr : Nat
  _SPIdata : Nat
  _SPIclock : Nat
  _SPIlatch : Nat
  _displayfunction : Nat
  _displaycontrol : Nat
  _displaymode : Nat
  _numlines : Nat
  _currline : Nat
  _isResetting : Bool
  _expecteddramcontents : List Nat
  _currentbufferindex : Nat
  _currentcursorposition : Nat
  deriving DecidableEq

/-- The object and the world together. The data member `_SPIbuff`, the one member a pin
write can change, is kept beside the other members. -/
structure St (W : Type) where
  obj : LCD
  _SPIbuff : Nat
  world : W

/-- A `for (i = 0; i < n; i++)` loop over a state. -/
def forUpTo {σ : Type} (n : Nat) (body : Nat → σ → σ) (st : σ) : σ :=
  (List.range n).foldl (fun acc i => body i acc) st

/-- A `for (i = 0; i < n; i++)` loop whose body can fault. -/
def forUpToM {σ : Type} (n : Nat) (body : Nat → σ → Except Fault σ) (st : σ) :
    Except Fault σ :=
  (List.range n).foldlM (fun acc i => body i acc) st

/-- The 8-bit value of `x & ~m`. -/
def andNot8 (x m : Nat) : Nat := x &&& (0xFF ^^^ (m % 256))

/-- One host call that returns nothing. -/
def emit {W : Type} (hw : Host W) (e : Eff) (st : St W) : St W :=
  { st with world := hw.out e st.world }

/-- An assignment to data members of the object. -/
def assign {W : Type} (f : LCD → LCD) (st : St W) : St W :=
  { st with obj := f st.obj }

/-- Element `i` of `_data_pins`. -/
def dataPin (s : LCD) (i : Nat) : Nat := s._data_pins.getD i 0

/-! ## Constructors -/

/-- Source `init`: the raw-GPIO constructors, acting on the object's storage. -/
def init (fourbitmode rs rw enable d0 d1 d2 d3 d4 d5 d6 d7 : Nat) (obj : LCD) : LCD :=
  { obj with
    _rs_pin := rs
    _rw_pin := rw
    _enable_pin := enable
    _data_pins := [d0, d1, d2, d3, d4, d5, d6, d7]
    _i2cAddr := 255
    _SPIclock := 255
    _SPIdata := 255
    _SPIlatch := 255
    _displayfunction :=
      if fourbitmode ≠ 0 then LCD_4BITMODE ||| LCD_1LINE ||| LCD_5x8DOTS
      else LCD_8BITMODE ||| LCD_1LINE ||| LCD_5x8DOTS }

/-- Constructor `(rs, rw, enable, d0..d7)`. -/
def ctor8rw (rs rw enable d0 d1 d2 d3 d4 d5 d6 d7 : Nat) (obj : LCD) : LCD :=
  init 0 rs rw enable d0 d1 d2 d3 d4 d5 d6 d7 obj

/-- Constructor `(rs, enable, d0..d7)`. -/
def ctor8 (rs enable d0 d1 d2 d3 d4 d5 d6 d7 : Nat) (obj : LCD) : LCD :=
  init 0 rs 255 enable d0 d1 d2 d3 d4 d5 d6 d7 obj

/-- Constructor `(rs, rw, enable, d0..d3)`. -/
def ctor4rw (rs rw enable d0 d1 d2 d3 : Nat) (obj : LCD) : LCD :=
  init 1 rs rw enable d0 d1 d2 d3 0 0 0 0 obj

/-- Constructor `(rs, enable, d0..d3)`. -/
def ctor4 (rs enable d0 d1 d2 d3 : Nat) (obj : LCD) : LCD :=
  init 1 rs 255 enable d0 d1 d2 d3 0 0 0 0 obj

/-- Constructor `(i2caddr)`. -/
def ctorI2C (i2caddr : Nat) (obj : LCD) : LCD :=
  { obj with
    _i2cAddr := i2caddr
    _displayfunction := LCD_4BITMODE ||| LCD_1LINE ||| LCD_5x8DOTS
    _rs_pin := 1
    _rw_pin := 255
    _enable_pin := 2
    _data_pins := (((obj._data_pins.set 0 3).set 1 4).set 2 5).set 3 6 }

/-- Constructor `(data, clock, latch)`; it also zeroes `_SPIbuff`, which `St` keeps
beside the object. -/
def ctorSPI (data clock latch : Nat) (obj : LCD) : LCD :=
  { obj with
    _i2cAddr := 255
    _displayfunction := LCD_4BITMODE ||| LCD_1LINE ||| LCD_5x8DOTS
    _rs_pin := 1
    _rw_pin := 255
    _enable_pin := 2
    _data_pins := (((obj._data_pins.set 0 6).set 1 5).set 2 4).set 3 3
    _SPIdata := data
    _SPIclock := clock
    _SPIlatch := latch }

/-! ## Low level pin access -/

/-- Source `_digitalWrite`. -/
def _digitalWrite {W : Type} (hw : Host W) (p d : Nat) (st : St W) : St W :=
  if st.obj._i2cAddr ≠ 255 then
    emit hw (.i2cDigitalWrite p d) st
  else if st.obj._SPIclock ≠ 255 then
    let st : St W :=
      { st with
        _SPIbuff :=
          if d = HIGH then (st._SPIbuff ||| (1 <<< p)) % 256
          else andNot8 st._SPIbuff (1 <<< p) }
    let st := emit hw (.digitalWrite st.obj._SPIlatch LOW) st
    let st := emit hw (.shiftOut st.obj._SPIdata st.obj._SPIclock MSBFIRST st._SPIbuff) st
    emit hw (.digitalWrite st.obj._SPIlatch HIGH) st
  else
    emit hw (.digitalWrite p d) st

/-- Source `setBacklight`. -/
def setBacklight {W : Type} (hw : Host W) (status : Nat) (st : St W) : St W :=
  if st.obj._i2cAddr ≠ 255 ∨ st.obj._SPIclock ≠ 255 then _digitalWrite hw 7 status st
  else st

/-- Source `_pinMode`. -/
def _pinMode {W : Type} (hw : Host W) (p d : Nat) (st : St W) : St W :=
  if st.obj._i2cAddr ≠ 255 then
    emit hw (.i2cPinMode p d) st
  else if st.obj._SPIclock ≠ 255 then
    st
  else
    emit hw (.pinMode p d) st

/-- Source `pulseEnable`. -/
def pulseEnable {W : Type} (hw : Host W) (st : St W) : St W :=
  let st := _digitalWrite hw st.obj._enable_pin LOW st
  let st := emit hw (.delayMicroseconds 1) st
  let st := _digitalWrite hw st.obj._enable_pin HIGH st
  let st := emit hw (.delayMicroseconds 1) st
  let st := _digitalWrite hw st.obj._enable_pin LOW st
  emit hw (.delayMicroseconds 100) st

/-- Source `write4bits`. -/
def write4bits {W : Type} (hw : Host W) (value : Nat) (st : St W) : St W :=
  if st.obj._i2cAddr ≠ 255 then
    let a := hw.ask .i2cReadPort st.world
    let out := forUpTo 4
      (fun i out =>
        let out := andNot8 out (1 <<< dataPin st.obj i)
        (out ||| (((value >>> i) &&& 0x1) <<< dataPin st.obj i)) % 256)
      (a.1 % 256)
    let out := andNot8 out (1 <<< st.obj._enable_pin)
    let st : St W := { st with world := a.2 }
    let st := emit hw (.i2cWritePort out) st
    let st := emit hw (.delayMicroseconds 1) st
    let out := (out ||| (1 <<< st.obj._enable_pin)) % 256
    let st := emit hw (.i2cWritePort out) st
    let st := emit hw (.delayMicroseconds 1) st
    let out := andNot8 out (1 <<< st.obj._enable_pin)
    let st := emit hw (.i2cWritePort out) st
    emit hw (.delayMicroseconds 100) st
  else
    let st := emit hw .noInterrupts st
    let st := forUpTo 4
      (fun i st =>
        let st := _pinMode hw (dataPin st.obj i) OUTPUT st
        _digitalWrite hw (dataPin st.obj i) ((value >>> i) &&& 0x01) st)
      st
    let st := pulseEnable hw st
    emit hw .interrupts st

/-- Source `write8bits`. -/
def write8bits {W : Type} (hw : Host W) (value : Nat) (st : St W) : St W :=
  if st.obj._i2cAddr ≠ 255 then
    st
  else
    let st := forUpTo 8
      (fun i st =>
        let st := _pinMode hw (dataPin st.obj i) OUTPUT st
        _digitalWrite hw (dataPin st.obj i) ((value >>> i) &&& 0x01) st)
      st
    pulseEnable hw st

/-- Source `read4bits`; the by-reference `value` is passed in and passed back. -/
def read4bits {W : Type} (hw : Host W) (value mode : Nat) (st : St W) : Nat × St W :=
  if st.obj._i2cAddr ≠ 255 then
    (value, st)
  else
    let st := _digitalWrite hw st.obj._rs_pin mode st
    let st := _digitalWrite hw st.obj._rw_pin HIGH st
    let st := _digitalWrite hw st.obj._enable_pin HIGH st
    let st := emit hw (.delayMicroseconds _read_delay_time) st
    let r := forUpTo 4
      (fun i (r : Nat × St W) =>
        let st := _pinMode hw (dataPin r.2.obj i) INPUT r.2
        let a := hw.ask (.digitalRead (dataPin st.obj i)) st.world
        ((r.1 ||| ((a.1 &&& 0x01) <<< i)) % 256, { st with world := a.2 }))
      (value, st)
    let st := _digitalWrite hw r.2.obj._enable_pin LOW r.2
    let st := _digitalWrite hw st.obj._rw_pin LOW st
    (r.1, st)

/-- Source `read8bits`; the by-reference `value` is passed in and passed back. -/
def read8bits {W : Type} (hw : Host W) (value mode : Nat) (st : St W) : Nat × St W :=
  if st.obj._i2cAddr ≠ 255 then
    (value, st)
  else
    let st := _digitalWrite hw st.obj._rs_pin mode st
    let st := _digitalWrite hw st.obj._rw_pin HIGH st
    let st := _digitalWrite hw st.obj._enable_pin HIGH st
    let st := emit hw (.delayMicroseconds _read_delay_time) st
    let r := forUpTo 8
      (fun i (r : Nat × St W) =>
        let st := _pinMode hw (dataPin r.2.obj i) INPUT r.2
        let value := (r.1 <<< 1) % 256
        let a := hw.ask (.digitalRead (dataPin st.obj i)) st.world
        ((value ||| (a.1 &&& 0x01)) % 256, { st with world := a.2 }))
      (value, st)
    let st := _digitalWrite hw r.2.obj._enable_pin LOW r.2
    let st := _digitalWrite hw st.obj._rw_pin LOW st
    (r.1, st)

/-- Source `receive`; the by-reference `value` is zeroed first, so only the value
handed back is kept. -/
def receive {W : Type} (hw : Host W) (mode : Nat) (st : St W) : Nat × St W :=
  let st := emit hw (.delayMicroseconds _read_delay_time) st
  let st := _digitalWrite hw st.obj._rs_pin mode st
  let st := if st.obj._rw_pin ≠ 255 then _digitalWrite hw st.obj._rw_pin HIGH st else st
  if st.obj._displayfunction &&& LCD_8BITMODE ≠ 0 then
    read8bits hw 0 mode st
  else
    let r := read4bits hw 0 mode st
    read4bits hw ((r.1 <<< 4) % 256) mode r.2

/-- Source `isBusy`; `sizeof(_data_pins) / sizeof(_data_pins[0])` is 8. -/
def isBusy {W : Type} (hw : Host W) (st : St W) : Bool × St W :=
  let busyBitIdx := 1 <<< 7
  let st := forUpTo 8 (fun i st => emit hw (.pinMode (dataPin st.obj i) INPUT_PULLUP) st) st
  let r := read4bits hw 0 _INSTR_MODE st
  let r := read4bits hw ((r.1 <<< 4) % 256) _INSTR_MODE r.2
  let busy : Bool := decide (r.1 &&& busyBitIdx ≠ 0)
  let st := assign (fun o => { o with _currentcursorposition := andNot8 r.1 busyBitIdx }) r.2
  let st := emit hw (.delayMicroseconds _read_delay_time) st
  let st := forUpTo 8 (fun i st => emit hw (.pinMode (dataPin st.obj i) OUTPUT) st) st
  (busy, st)

/-- Source `send`, its second part: the statements after the shadow store, which put
the byte on the bus. -/
def busFrame {W : Type} (hw : Host W) (value mode : Nat) (st : St W) : St W :=
  let st := emit hw (.delayMicroseconds 100) st
  let st := _digitalWrite hw st.obj._rs_pin mode st
  let st := if st.obj._rw_pin ≠ 255 then _digitalWrite hw st.obj._rw_pin LOW st else st
  if st.obj._displayfunction &&& LCD_8BITMODE ≠ 0 then
    write8bits hw value st
  else
    let st := write4bits hw (value >>> 4) st
    write4bits hw value st

/-- The two assignments of `send` in data mode. -/
def shadowStore (value : Nat) (o : LCD) : LCD :=
  { o with
    _expecteddramcontents := o._expecteddramcontents.set o._currentbufferindex value
    _currentbufferindex := (o._currentbufferindex + 1) % 256 }

/-- Source `send`: in data mode the byte is stored in the shadow buffer at the buffer
index, which then advances; then the byte goes on the bus. -/
def send {W : Type} (hw : Host W) (value mode : Nat) (st : St W) : Except Fault (St W) :=
  if mode = _DDRAM_MODE then
    if st.obj._currentbufferindex < _MAX_DDRAM_SIZE then
      .ok (busFrame hw value mode (assign (shadowStore value) st))
    else
      .error (Fault.shadowOverrun st.obj._currentbufferindex)
  else
    .ok (busFrame hw value mode st)

/-- Source `command`. -/
def command {W : Type} (hw : Host W) (value : Nat) (st : St W) : Except Fault (St W) :=
  send hw value LOW st

/-! ## High level commands -/

/-- The local table `row_offsets` of `setCursor`. -/
def row_offsets : List Nat := [0x00, 0x40, 0x14, 0x54]

/-- The local table `index_offsets` of `setCursor`. -/
def index_offsets : List Nat := [0, 40, 20, 60]

/-- Source `setCursor`; a row that, after the clamp, lies past the two 4-entry tables is
reported as `Fault.rowTableOverrun`. -/
def setCursor {W : Type} (hw : Host W) (col row : Nat) (st : St W) : Except Fault (St W) := do
  let row := if row > st.obj._numlines then (st.obj._numlines + 255) % 256 else row
  if row < 4 then
    let st := assign (fun o =>
      { o with
        _currentbufferindex := (index_offsets.getD row 0 + col) % 256
        _currentcursorposition := (col + row_offsets.getD row 0) % 256 }) st
    command hw (LCD_SETDDRAMADDR ||| st.obj._currentcursorposition) st
  else
    throw (Fault.rowTableOverrun row)

/-- Source `clear`. -/
def clear {W : Type} (hw : Host W) (st : St W) : Except Fault (St W) := do
  let st : St W :=
    if st.obj._isResetting = false then
      forUpTo _MAX_DDRAM_SIZE
        (fun i st => assign (fun o =>
          { o with
            _expecteddramcontents := o._expecteddramcontents.set i _BLANK_CHAR
            _currentbufferindex := 0 }) st)
        st
    else st
  let st ← setCursor hw 0 0 st
  let st ← command hw LCD_CLEARDISPLAY st
  pure (emit hw (.delayMicroseconds 2000) st)

/-- Source `home`. -/
def home {W : Type} (hw : Host W) (st : St W) : Except Fault (St W) := do
  let st ← command hw LCD_RETURNHOME st
  pure (emit hw (.delayMicroseconds 2000) st)

/-- Source `noDisplay`. -/
def noDisplay {W : Type} (hw : Host W) (st : St W) : Except Fault (St W) :=
  let st := assign (fun o => { o with _displaycontrol := andNot8 o._displaycontrol LCD_DISPLAYON }) st
  command hw (LCD_DISPLAYCONTROL ||| st.obj._displaycontrol) st

/-- Source `display`. -/
def display {W : Type} (hw : Host W) (st : St W) : Except Fault (St W) :=
  let st := assign (fun o => { o with _displaycontrol := o._displaycontrol ||| LCD_DISPLAYON }) st
  command hw (LCD_DISPLAYCONTROL ||| st.obj._displaycontrol) st

/-- Source `noCursor`. -/
def noCursor {W : Type} (hw : Host W) (st : St W) : Except Fault (St W) :=
  let st := assign (fun o => { o with _displaycontrol := andNot8 o._displaycontrol LCD_CURSORON }) st
  command hw (LCD_DISPLAYCONTROL ||| st.obj._displaycontrol) st

/-- Source `cursor`. -/
def cursor {W : Type} (hw : Host W) (st : St W) : Except Fault (St W) :=
  let st := assign (fun o => { o with _displaycontrol := o._displaycontrol ||| LCD_CURSORON }) st
  command hw (LCD_DISPLAYCONTROL ||| st.obj._displaycontrol) st

/-- Source `noBlink`. -/
def noBlink {W : Type} (hw : Host W) (st : St W) : Except Fault (St W) :=
  let st := assign (fun o => { o with _displaycontrol := andNot8 o._displaycontrol LCD_BLINKON }) st
  command hw (LCD_DISPLAYCONTROL ||| st.obj._displaycontrol) st

/-- Source `blink`. -/
def blink {W : Type} (hw : Host W) (st : St W) : Except Fault (St W) :=
  let st := assign (fun o => { o with _displaycontrol := o._displaycontrol ||| LCD_BLINKON }) st
  command hw (LCD_DISPLAYCONTROL ||| st.obj._displaycontrol) st

/-- Source `scrollDisplayLeft`. -/
def scrollDisplayLeft {W : Type} (hw : Host W) (st : St W) : Except Fault (St W) :=
  command hw (LCD_CURSORSHIFT ||| LCD_DISPLAYMOVE ||| LCD_MOVELEFT) st

/-- Source `scrollDisplayRight`. -/
def scrollDisplayRight {W : Type} (hw : Host W) (st : St W) : Except Fault (St W) :=
  command hw (LCD_CURSORSHIFT ||| LCD_DISPLAYMOVE ||| LCD_MOVERIGHT) st

/-- Source `leftToRight`. -/
def leftToRight {W : Type} (hw : Host W) (st : St W) : Except Fault (St W) :=
  let st := assign (fun o => { o with _displaymode := o._displaymode ||| LCD_ENTRYLEFT }) st
  command hw (LCD_ENTRYMODESET ||| st.obj._displaymode) st

/-- Source `rightToLeft`. -/
def rightToLeft {W : Type} (hw : Host W) (st : St W) : Except Fault (St W) :=
  let st := assign (fun o => { o with _displaymode := andNot8 o._displaymode LCD_ENTRYLEFT }) st
  command hw (LCD_ENTRYMODESET ||| st.obj._displaymode) st

/-- Source `autoscroll`. -/
def autoscroll {W : Type} (hw : Host W) (st : St W) : Except Fault (St W) :=
  let st := assign (fun o =>
    { o with _displaymode := o._displaymode ||| LCD_ENTRYSHIFTINCREMENT }) st
  command hw (LCD_ENTRYMODESET ||| st.obj._displaymode) st

/-- Source `noAutoscroll`. -/
def noAutoscroll {W : Type} (hw : Host W) (st : St W) : Except Fault (St W) :=
  let st := assign (fun o =>
    { o with _displaymode := andNot8 o._displaymode LCD_ENTRYSHIFTINCREMENT }) st
  command hw (LCD_ENTRYMODESET ||| st.obj._displaymode) st

/-- Source `begin`, the block that sets the pin directions of the transport in use. -/
def beginPins {W : Type} (hw : Host W) (st : St W) : St W :=
  if st.obj._i2cAddr ≠ 255 then
    let st := emit hw (.i2cBegin st.obj._i2cAddr) st
    let st := emit hw (.i2cPinMode 7 OUTPUT) st
    let st := emit hw (.i2cDigitalWrite 7 HIGH) st
    let st := forUpTo 4 (fun i st => _pinMode hw (dataPin st.obj i) OUTPUT st) st
    let st := emit hw (.i2cPinMode st.obj._rs_pin OUTPUT) st
    emit hw (.i2cPinMode st.obj._enable_pin OUTPUT) st
  else if st.obj._SPIclock ≠ 255 then
    let st := emit hw (.pinMode st.obj._SPIdata OUTPUT) st
    let st := emit hw (.pinMode st.obj._SPIclock OUTPUT) st
    let st := emit hw (.pinMode st.obj._SPIlatch OUTPUT) st
    { st with _SPIbuff := 0x80 }
  else
    let st := emit hw (.pinMode st.obj._rs_pin OUTPUT) st
    let st := if st.obj._rw_pin ≠ 255 then emit hw (.pinMode st.obj._rw_pin OUTPUT) st else st
    emit hw (.pinMode st.obj._enable_pin OUTPUT) st

/-- Source `begin`, the assignments that record the geometry: `_displayfunction`,
`_numlines`, `_currline`. -/
def beginGeometry (lines dotsize : Nat) (o : LCD) : LCD :=
  let o := if lines > 1 then { o with _displayfunction := o._displayfunction ||| LCD_2LINE } else o
  let o := { o with _numlines := lines, _currline := 0 }
  if dotsize ≠ 0 ∧ lines = 1 then
    { o with _displayfunction := o._displayfunction ||| LCD_5x10DOTS }
  else o

/-- Source `begin`, the three writes that pull RS, enable and R/W low. -/
def beginLinesLow {W : Type} (hw : Host W) (st : St W) : St W :=
  let st := _digitalWrite hw st.obj._rs_pin LOW st
  let st := _digitalWrite hw st.obj._enable_pin LOW st
  if st.obj._rw_pin ≠ 255 then _digitalWrite hw st.obj._rw_pin LOW st else st

/-- Source `begin`, the block that puts the LCD into 4 bit or 8 bit mode. -/
def beginBusWidth {W : Type} (hw : Host W) (st : St W) : Except Fault (St W) :=
  if ¬ (st.obj._displayfunction &&& LCD_8BITMODE ≠ 0) then
    let st := write4bits hw 0x03 st
    let st := emit hw (.delayMicroseconds 4500) st
    let st := write4bits hw 0x03 st
    let st := emit hw (.delayMicroseconds 4500) st
    let st := write4bits hw 0x03 st
    let st := emit hw (.delayMicroseconds 150) st
    pure (write4bits hw 0x02 st)
  else do
    let st ← command hw (LCD_FUNCTIONSET ||| st.obj._displayfunction) st
    let st := emit hw (.delayMicroseconds 4500) st
    let st ← command hw (LCD_FUNCTIONSET ||| st.obj._displayfunction) st
    let st := emit hw (.delayMicroseconds 150) st
    command hw (LCD_FUNCTIONSET ||| st.obj._displayfunction) st

/-- Source `begin`: the four blocks above in order, then function set, display on,
clear and entry mode. -/
def begin {W : Type} (hw : Host W) (cols lines dotsize : Nat) (st : St W) :
    Except Fault (St W) := do
  let _ := cols
  let st := beginPins hw st
  let st := assign (beginGeometry lines dotsize) st
  let st := emit hw (.delayMicroseconds 50000) st
  let st := beginLinesLow hw st
  let st ← beginBusWidth hw st
  let st ← command hw (LCD_FUNCTIONSET ||| st.obj._displayfunction) st
  let st := assign (fun o =>
    { o with _displaycontrol := LCD_DISPLAYON ||| LCD_CURSOROFF ||| LCD_BLINKOFF }) st
  let st ← display hw st
  let st ← clear hw st
  let st := assign (fun o =>
    { o with _displaymode := LCD_ENTRYLEFT ||| LCD_ENTRYSHIFTDECREMENT }) st
  command hw (LCD_ENTRYMODESET ||| st.obj._displaymode) st

/-- Source `resync4BitMode`: it calls `begin(20,4)` and returns; the statements after
the `return` are never run. The omitted third argument is the header default, the
5x8 font. -/
def resync4BitMode {W : Type} (hw : Host W) (st : St W) : Except Fault (St W) :=
  begin hw 20 4 LCD_5x8DOTS st

/-- Source `rewriteAll`. -/
def rewriteAll {W : Type} (hw : Host W) (st : St W) : Except Fault (St W) := do
  let st ← resync4BitMode hw st
  let st := emit hw (.delay 10) st
  forUpToM _MAX_DDRAM_SIZE
    (fun i st => send hw (st.obj._expecteddramcontents.getD i 0) _DDRAM_MODE st)
    st

/-- The loop `while (isBusy()) delayMicroseconds(us);` run for at most `fuel` polls. -/
def waitWhileBusy {W : Type} (hw : Host W) (us : Nat) : Nat → St W → Except Fault (St W)
  | 0, _ => throw Fault.busyForever
  | fuel + 1, st =>
    let r := isBusy hw st
    if r.1 then waitWhileBusy hw us fuel (emit hw (.delayMicroseconds us) r.2)
    else pure r.2

/-- Source `write`, its first statement: outside a recovery, `rand() % 100 < 1` decides
whether an extra enable pulse is put on the bus. -/
def injectPulse {W : Type} (hw : Host W) (st : St W) : St W :=
  if st.obj._isResetting = false then
    let a := hw.ask .rand st.world
    let st : St W := { st with world := a.2 }
    if a.1 % 100 < 1 then pulseEnable hw st else st
  else st

/-- Source `write`, the body of `if (temp != value)`: the recovery. -/
def recover {W : Type} (hw : Host W) (st : St W) : Except Fault (St W) := do
  let st := assign (fun o => { o with _isResetting := true }) st
  let st ← rewriteAll hw st
  let st := assign (fun o => { o with _isResetting := false }) st
  command hw (LCD_SETDDRAMADDR ||| st.obj._currentbufferindex) st

/-- Source `write`, from the first busy wait to the second seek: the byte is sent, the
cell it went to is read back, and the byte read (the local `temp`) is handed on. -/
def writeReadBack {W : Type} (hw : Host W) (fuel : Nat) (value : Nat) (st : St W) :
    Except Fault (Nat × St W) := do
  let st := injectPulse hw st
  let st ← waitWhileBusy hw 100 fuel st
  let st ← send hw value HIGH st
  let curpos := st.obj._currentcursorposition
  let st ← waitWhileBusy hw 100 fuel st
  let newcurpos := st.obj._currentcursorposition
  let st ← command hw (LCD_SETDDRAMADDR ||| curpos) st
  let r := receive hw _DDRAM_MODE st
  let temp := r.1
  let st ← command hw (LCD_SETDDRAMADDR ||| newcurpos) r.2
  pure (temp, st)

/-- Source `write` (the `ARDUINO >= 100` variant, which is the one compiled); each of its
two busy-wait loops may poll `fuel` times. -/
def write {W : Type} (hw : Host W) (fuel : Nat) (value : Nat) (st : St W) :
    Except Fault (St W) := do
  let r ← writeReadBack hw fuel value st
  let temp := r.1
  let st := r.2
  let tempindexpostion := st.obj._currentbufferindex % 256
  let st ← if temp ≠ value then recover hw st else pure st
  pure (assign (fun o => { o with _currentbufferindex := tempindexpostion }) st)

/-- Source `createChar`; `charmap` is the caller's 8-byte glyph. -/
def createChar {W : Type} (hw : Host W) (fuel : Nat) (location : Nat) (charmap : List Nat)
    (st : St W) : Except Fault (St W) := do
  let location := location &&& 0x7
  let st ← command hw (LCD_SETCGRAMADDR ||| (location <<< 3)) st
  forUpToM 8 (fun i st => write hw fuel (charmap.getD i 0) st) st

/-- Source `checkDisplay`; the locals `displaydram` and `match` are handed back, since
the function itself only prints them. -/
def checkDisplay {W : Type} (hw : Host W) (fuel : Nat) (diagnostics_level : Nat) (st : St W) :
    Except Fault ((List Nat × Bool) × St W) := do
  let _ := diagnostics_level
  let st ← setCursor hw 0 0 st
  let st := emit hw (.delayMicroseconds _read_delay_time) st
  let st ← waitWhileBusy hw _read_delay_time fuel st
  let r := forUpTo _MAX_DDRAM_SIZE
    (fun i (r : (List Nat × Bool) × St W) =>
      let v := receive hw _DDRAM_MODE r.2
      let displaydram := r.1.1 ++ [v.1]
      let matched := if v.1 ≠ v.2.obj._expecteddramcontents.getD i 0 then false else r.1.2
      ((displaydram, matched), v.2))
    ((([] : List Nat), true), st)
  pure r

/-! ## Notions used in the statements -/

/-- What `clear` does to the object. -/
def clearObj (o : LCD) : LCD :=
  { (if o._isResetting = false then
      forUpTo _MAX_DDRAM_SIZE (fun i o =>
          { o with
            _expecteddramcontents := o._expecteddramcontents.set i _BLANK_CHAR
            _currentbufferindex := 0 }) o
     else o) with
    _currentbufferindex := 0
    _currentcursorposition := 0 }

/-- What `begin` does to the object. -/
def beginObj (lines dotsize : Nat) (o : LCD) : LCD :=
  let o := beginGeometry lines dotsize o
  let o :=
    { o with _displaycontrol := (LCD_DISPLAYON ||| LCD_CURSOROFF ||| LCD_BLINKOFF) ||| LCD_DISPLAYON }
  let o := clearObj o
  { o with _displaymode := LCD_ENTRYLEFT ||| LCD_ENTRYSHIFTDECREMENT }

/-- Data bytes sent one after the other. -/
def sendCells {W : Type} (hw : Host W) (cells : List Nat) (st : St W) : Except Fault (St W) :=
  cells.foldlM (fun st b => send hw b _DDRAM_MODE st) st

/-- Bytes written one after the other with `write`. -/
def writeAll {W : Type} (hw : Host W) (fuel : Nat) (bs : List Nat) (st : St W) :
    Except Fault (St W) :=
  bs.foldlM (fun st b => write hw fuel b st) st

/-- The object a run ends with, if it ends. -/
def objOf {W : Type} (r : Except Fault (St W)) : Option LCD :=
  match r with
  | .ok st => some st.obj
  | .error _ => none

/-- The fault a run ends with, if it faults. -/
def faultOf {α : Type} (r : Except Fault α) : Option Fault :=
  match r with
  | .ok _ => none
  | .error e => some e

/-- A host that answers every read from a script, with 0 once the script is used up,
and ignores what is written. -/
def scripted : Host (List Nat) where
  out := fun _ w => w
  ask := fun _ w => (w.headD 0, w.tail)

/-- Zeroed storage for an object, as a global instance has before its constructor
runs. -/
def zeroed : LCD :=
  { _rs_pin := 0, _rw_pin := 0, _enable_pin := 0, _data_pins := List.replicate 8 0,
    _i2cAddr := 0, _SPIdata := 0, _SPIclock := 0, _SPIlatch := 0, _displayfunction := 0,
    _displaycontrol := 0, _displaymode := 0, _numlines := 0, _currline := 0,
    _isResetting := false, _expecteddramcontents := List.replicate 80 0,
    _currentbufferindex := 0, _currentcursorposition := 0 }

/-- A 4-bit raw-GPIO object `(rs 12, rw 10, enable 11, d 5 4 3 2)` on the scripted host. -/
def demo4 (script : List Nat) : St (List Nat) :=
  { obj := ctor4rw 12 10 11 5 4 3 2 zeroed, _SPIbuff := 0, world := script }

/-- An 8-bit raw-GPIO object `(rs 12, rw 10, enable 11, d 2..9)` on the scripted host. -/
def demo8 (script : List Nat) : St (List Nat) :=
  { obj := ctor8rw 12 10 11 2 3 4 5 6 7 8 9 zeroed, _SPIbuff := 0, world := script }

/-- The answers that make one 4-bit `write b` go through quietly: `rand` gives 1, the
two busy polls read all pins low, the read-back reads the bits of `seen`. -/
def quietWrite (seen : Nat) : List Nat :=
  [1] ++ List.replicate 16 0
    ++ (List.range 4).map (fun i => (seen >>> (4 + i)) &&& 1)
    ++ (List.range 4).map (fun i => (seen >>> i) &&& 1)

/-- The bytes of "HELLO WORLD FROM LCD". -/
def helloBytes : List Nat :=
  [72, 69, 76, 76, 79, 32, 87, 79, 82, 76, 68, 32, 70, 82, 79, 77, 32, 76, 67, 68]

/-- The 4-bit demo object after `begin(20,4,0)`. -/
def ready4 (script : List Nat) : St (List Nat) :=
  match begin scripted 20 4 0 (demo4 script) with
  | .ok st => st
  | .error _ => demo4 script

/-- The 4-bit demo object after `begin(20,4,0)` and quiet writes of "HI", at the moment
`write` has set the reentrancy guard. -/
def recovering4 : St (List Nat) :=
  match writeAll scripted 1 [72, 73] (ready4 (quietWrite 72 ++ quietWrite 73)) with
  | .ok st => assign (fun o => { o with _isResetting := true }) st
  | .error _ => demo4 []

/-- Answers for writing "HELLO WORLD FROM LCD": the read-back of the first byte comes
back as 0, which triggers a recovery, the other nineteen read back what was written. -/
def helloScript : List Nat :=
  quietWrite 0 ++ helloBytes.tail.flatMap quietWrite

/-! ## A bus that plays back what was driven -/

/-- The pins as a bus monitor sees them: the level last driven on each pin and, for
every falling edge of the enable pin so far, the levels all pins had at that edge. -/
structure Wires where
  level : Nat → Nat
  frames : List (Nat → Nat)

/-- A host that records the pin levels at each falling edge of `enable`. -/
def recorder (enable : Nat) : Host Wires where
  out := fun e w =>
    match e with
    | .digitalWrite p d =>
      { level := fun q => if q = p then d else w.level q
        frames :=
          if p = enable ∧ d = LOW ∧ w.level enable = HIGH then w.frames ++ [w.level]
          else w.frames }
    | _ => w
  ask := fun _ w => (0, w)

/-- A host on which a read of a pin gives the level recorded for that pin in the
oldest frame not yet played; a falling edge of `enable` ends the frame. -/
def player (enable : Nat) : Host Wires where
  out := fun e w =>
    match e with
    | .digitalWrite p d =>
      { level := fun q => if q = p then d else w.level q
        frames :=
          if p = enable ∧ d = LOW ∧ w.level enable = HIGH then w.frames.tail
          else w.frames }
    | _ => w
  ask := fun q w =>
    match q with
    | .digitalRead p => (w.frames.headD (fun _ => 0) p, w)
    | _ => (0, w)

/-- Function `send` of a data byte on the recording bus, then `receive` on a bus that
presents, transfer by transfer, the levels `send` drove. -/
def loopback (o : LCD) (v : Nat) : Option Nat :=
  match send (recorder o._enable_pin) v _DDRAM_MODE
      { obj := o, _SPIbuff := 0, world := { level := fun _ => 0, frames := [] } } with
  | .error _ => none
  | .ok st =>
    some (receive (player o._enable_pin) _DDRAM_MODE
      { obj := st.obj, _SPIbuff := st._SPIbuff,
        world := { level := fun _ => 0, frames := st.world.frames } }).1

/-- The byte with the bits of `v` in reverse order. -/
def reverse8 (v : Nat) : Nat :=
  (List.range 8).foldl (fun acc i => acc ||| (((v >>> i) &&& 1) <<< (7 - i))) 0

/-! ## An ideal controller on the 4-bit raw transport

Modelled from the spec: the repair-convergence property speaks of "a simulated
transport that corrupts exactly one write"; the repository holds no such simulation.
What follows is an HD44780 as its data sheet describes it, wired to the pins of a
4-bit raw-GPIO object, with one added field `glitch`: a mask the transport XORs into
the next data byte the controller accepts, after which the transport is faithful. -/

/-- Modelled from the spec: the instructions of the controller. -/
inductive Instr where
  | nop
  | clearDisplay
  | returnHome
  | entryMode (incr shift : Bool)
  | displayControl (display cursor blink : Bool)
  | cursorShift (display right : Bool)
  | functionSet (dl8 twoLine font : Bool)
  | setCGRAM (addr : Nat)
  | setDDRAM (addr : Nat)
  deriving DecidableEq

/-- Modelled from the spec: instruction decoding, highest set bit first. -/
def decode (b : Nat) : Instr :=
  if b &&& 0x80 ≠ 0 then .setDDRAM (b &&& 0x7F)
  else if b &&& 0x40 ≠ 0 then .setCGRAM (b &&& 0x3F)
  else if b &&& 0x20 ≠ 0 then
    .functionSet (decide (b &&& 0x10 ≠ 0)) (decide (b &&& 0x08 ≠ 0)) (decide (b &&& 0x04 ≠ 0))
  else if b &&& 0x10 ≠ 0 then .cursorShift (decide (b &&& 0x08 ≠ 0)) (decide (b &&& 0x04 ≠ 0))
  else if b &&& 0x08 ≠ 0 then
    .displayControl (decide (b &&& 0x04 ≠ 0)) (decide (b &&& 0x02 ≠ 0)) (decide (b &&& 0x01 ≠ 0))
  else if b &&& 0x04 ≠ 0 then .entryMode (decide (b &&& 0x02 ≠ 0)) (decide (b &&& 0x01 ≠ 0))
  else if b &&& 0x02 ≠ 0 then .returnHome
  else if b &&& 0x01 ≠ 0 then .clearDisplay
  else .nop

/-- Modelled from the spec: the state of the controller. `half` says that the first
nibble of a 4-bit transfer has gone by, `hi` is that nibble when it was written (0 once
the byte is complete). -/
structure Ctrl where
  ddram : Nat → Nat
  cgram : Nat → Nat
  ac : Nat
  cg : Bool
  dl8 : Bool
  twoLine : Bool
  font : Bool
  incr : Bool
  shift : Bool
  display : Bool
  cursor : Bool
  blink : Bool
  half : Bool
  hi : Nat
  glitch : Nat

/-- Modelled from the spec: the address after `ac` in the direction `incr`; in two-line
mode DDRAM runs 0x00..0x27 then 0x40..0x67, in one-line mode 0x00..0x4F. -/
def stepAddr (c : Ctrl) (incr : Bool) : Nat :=
  if c.cg then
    if incr then (c.ac + 1) % 64 else (c.ac + 63) % 64
  else if c.twoLine then
    if incr then
      if c.ac = 0x27 then 0x40 else if c.ac = 0x67 then 0x00 else (c.ac + 1) % 128
    else
      if c.ac = 0x40 then 0x27 else if c.ac = 0x00 then 0x67 else (c.ac + 127) % 128
  else
    if incr then
      if c.ac = 0x4F then 0x00 else (c.ac + 1) % 128
    else
      if c.ac = 0x00 then 0x4F else (c.ac + 127) % 128

/-- Modelled from the spec: one instruction carried out. -/
def exec (i : Instr) (c : Ctrl) : Ctrl :=
  match i with
  | .nop => c
  | .clearDisplay => { c with ddram := fun _ => 0x20, ac := 0, cg := false, incr := true }
  | .returnHome => { c with ac := 0, cg := false }
  | .entryMode incr shift => { c with incr := incr, shift := shift }
  | .displayControl d cu b => { c with display := d, cursor := cu, blink := b }
  | .cursorShift display right => if display then c else { c with ac := stepAddr c right }
  | .functionSet dl8 twoLine font =>
    { c with dl8 := dl8, twoLine := twoLine, font := font, half := false }
  | .setCGRAM a => { c with ac := a, cg := true }
  | .setDDRAM a => { c with ac := a, cg := false }

/-- Modelled from the spec: one data byte stored at the address counter, which then
steps; a pending `glitch` corrupts the byte and is used up. -/
def storeData (b : Nat) (c : Ctrl) : Ctrl :=
  let b := b ^^^ c.glitch
  let c := { c with glitch := 0 }
  if c.cg then { c with cgram := fun a => if a = c.ac then b else c.cgram a, ac := stepAddr c c.incr }
  else { c with ddram := fun a => if a = c.ac then b else c.ddram a, ac := stepAddr c c.incr }

/-- Modelled from the spec: a whole byte arrived, with register select `rs`. -/
def accept (rs b : Nat) (c : Ctrl) : Ctrl :=
  if rs = 0 then exec (decode b) c else storeData b c

/-- Modelled from the spec: a falling edge of enable with R/W low and `nib` on D7..D4.
With the 8-bit interface selected the four unwired low lines read high. -/
def writeCycle (rs nib : Nat) (c : Ctrl) : Ctrl :=
  if c.dl8 then accept rs (nib * 16 + 0x0F) c
  else if c.half then accept rs (c.hi * 16 + nib) { c with half := false, hi := 0 }
  else { c with half := true, hi := nib }

/-- Modelled from the spec: the byte a read presents: busy flag (never set) and address
counter with register select low, the addressed cell with register select high. -/
def outByte (rs : Nat) (c : Ctrl) : Nat :=
  if rs = 0 then c.ac % 128
  else if c.cg then c.cgram c.ac else c.ddram c.ac

/-- Modelled from the spec: what D7..D4 show while enable is high with R/W high. -/
def readNibble (rs : Nat) (c : Ctrl) : Nat :=
  if c.dl8 then outByte rs c / 16 % 16
  else if c.half then outByte rs c % 16
  else outByte rs c / 16 % 16

/-- Modelled from the spec: a falling edge of enable with R/W high; a data read that
is complete steps the address counter. -/
def readCycle (rs : Nat) (c : Ctrl) : Ctrl :=
  if c.dl8 then
    if rs = 0 then c else { c with ac := stepAddr c c.incr }
  else if c.half then
    if rs = 0 then { c with half := false }
    else { c with half := false, ac := stepAddr c c.incr }
  else { c with half := true }

/-- Modelled from the spec: the controller, the levels the driver last drove on its
pins, and the values `rand` will return. -/
structure Board where
  ctrl : Ctrl
  level : Nat → Nat
  rand : List Nat

/-- Modelled from the spec: the simulated transport. Pins `rs`, `rw`, `en` and
`d4..d7` of the host go to the controller. -/
def board (rs rw en d4 d5 d6 d7 : Nat) : Host Board where
  out := fun e w =>
    match e with
    | .digitalWrite p d =>
      let nib := w.level d4 % 2 + 2 * (w.level d5 % 2) + 4 * (w.level d6 % 2)
        + 8 * (w.level d7 % 2)
      { w with
        level := fun q => if q = p then d else w.level q
        ctrl :=
          if p = en ∧ d = 0 ∧ w.level en ≠ 0 then
            if w.level rw = 0 then writeCycle (w.level rs) nib w.ctrl
            else readCycle (w.level rs) w.ctrl
          else w.ctrl }
    | _ => w
  ask := fun q w =>
    match q with
    | .digitalRead p =>
      if w.level rw ≠ 0 ∧ w.level en ≠ 0 then
        let nib := readNibble (w.level rs) w.ctrl
        (if p = d4 then nib % 2 else if p = d5 then nib / 2 % 2
          else if p = d6 then nib / 4 % 2 else if p = d7 then nib / 8 % 2 else 0, w)
      else (0, w)
    | .rand => (w.rand.headD 1, { w with rand := w.rand.tail })
    | .i2cReadPort => (0, w)

/-- Modelled from the spec: the controller as it powers up: 8-bit interface, one line,
display off, increment, nothing pending; `glitch` is the corruption to come. -/
def powerOn (glitch : Nat) : Ctrl :=
  { ddram := fun _ => 0x20, cgram := fun _ => 0, ac := 0, cg := false, dl8 := true,
    twoLine := false, font := false, incr := true, shift := false, display := false,
    cursor := false, blink := false, half := false, hi := 0, glitch := glitch }

/-- The simulated transport wired to the demo object `(rs 12, rw 10, enable 11, d 5 4 3 2)`. -/
def demoBoard : Host Board := board 12 10 11 5 4 3 2

/-- The 4-bit demo object on the simulated transport. -/
def demoOnBoard (glitch : Nat) : St Board :=
  { obj := ctor4rw 12 10 11 5 4 3 2 zeroed, _SPIbuff := 0,
    world := { ctrl := powerOn glitch, level := fun _ => 0, rand := [] } }

/-- The demo wiring of a 4-bit raw-GPIO object with an R/W pin. -/
structure Wired (o : LCD) : Prop where
  rs : o._rs_pin = 12
  rw : o._rw_pin = 10
  en : o._enable_pin = 11
  data : o._data_pins = [5, 4, 3, 2, 0, 0, 0, 0]
  i2c : o._i2cAddr = 255
  spi : o._SPIclock = 255
  four : o._displayfunction &&& LCD_8BITMODE = 0

/-- The board between two transfers of a driver and a controller that agree on the
4-bit interface: enable is low and no nibble is pending. -/
structure Synced (w : Board) : Prop where
  dl8 : w.ctrl.dl8 = false
  half : w.ctrl.half = false
  hi : w.ctrl.hi = 0
  en : w.level 11 = 0

/-- One `digitalWrite` as the simulated transport sees it. -/
def drive (p d : Nat) (w : Board) : Board := demoBoard.out (.digitalWrite p d) w

/-- What `read4bits` makes of `value` when the data pins show the nibble `nib`. -/
def pack (value nib : Nat) : Nat :=
  ((((value ||| nib % 2) % 256 ||| (nib / 2 % 2) <<< 1) % 256 ||| (nib / 4 % 2) <<< 2) % 256
    ||| (nib / 8 % 2) <<< 3) % 256

/-- The controller between two transfers on the 4-bit interface. -/
structure Idle (c : Ctrl) : Prop where
  dl8 : c.dl8 = false
  half : c.half = false
  hi : c.hi = 0

/-- State `st` has object `o` and controller `c`, with enable low. -/
structure Sees (st : St Board) (o : LCD) (c : Ctrl) : Prop where
  obj : st.obj = o
  ctrl : st.world.ctrl = c
  en : st.world.level 11 = 0

/-- The controller after the re-initialisation that `begin(20,4)` performs from an idle
4-bit state: cleared, two lines, display on, increment; `font` is the font bit sent. -/
def reinit (font : Bool) (c : Ctrl) : Ctrl :=
  { c with
    ddram := fun _ => 0x20, ac := 0, cg := false, dl8 := false, twoLine := true, font := font,
    incr := true, shift := false, display := true, cursor := false, blink := false,
    half := false }

/-- The DDRAM address of the `i`-th cell in the order the address counter visits them
in two-line mode; after the 80th cell it is back at the first. -/
def seqAddr (i : Nat) : Nat := if i % 80 < 40 then i % 80 else 0x40 + (i % 80 - 40)

/-- DDRAM after the first `n` cells of `B` were stored in address-counter order on a
cleared display. -/
def laid (B : List Nat) : Nat → Nat → Nat
  | 0 => fun _ => 0x20
  | n + 1 => fun a => if a = seqAddr n then B.getD n 0 else laid B n a

/-- The 4-bit demo object on the simulated transport after `begin(20,4,0)`, with the
corruption `glitch` still to come. -/
def readyOnBoard (glitch : Nat) : St Board :=
  match begin demoBoard 20 4 0 (demoOnBoard glitch) with
  | .ok st => st
  | .error _ => demoOnBoard glitch

/-- The world a run ends with, if it ends. -/
def worldOf {W : Type} (r : Except Fault (St W)) : Option W :=
  match r with
  | .ok st => some st.world
  | .error _ => none

/-- A host that answers 1 to every read and whose world counts the calls of
`_i2c.begin`. -/
def beginCounter : Host Nat where
  out := fun e w =>
    match e with
    | .i2cBegin _ => w + 1
    | _ => w
  ask := fun _ w => (1, w)

/-- The I2C object at address `0x20`, as constructed, on the counting host. -/
def demoI2C : St Nat :=
  { obj := ctorI2C 0x20 zeroed, _SPIbuff := 0, world := 0 }

/-- The I2C demo object after `begin(16,2,0)`. -/
def readyI2C : St Nat :=
  match begin beginCounter 16 2 0 demoI2C with
  | .ok st => st
  | .error _ => demoI2C

/-! ## What the pin-level steps leave alone -/

@[simp] theorem emit_obj {W : Type} (hw : Host W) (e : Eff) (st : St W) :
    (emit hw e st).obj = st.obj := rfl

@[simp] theorem assign_obj {W : Type} (f : LCD → LCD) (st : St W) :
    (assign f st).obj = f st.obj := rfl

theorem forUpTo_succ {σ : Type} (n : Nat) (body : Nat → σ → σ) (st : σ) :
    forUpTo (n + 1) body st = body n (forUpTo n body st) := by
  simp [forUpTo, List.range_succ]

theorem forUpTo_zero {σ : Type} (body : Nat → σ → σ) (st : σ) : forUpTo 0 body st = st := rfl

theorem forUpToM_succ {σ : Type} (n : Nat) (body : Nat → σ → Except Fault σ) (st : σ) :
    forUpToM (n + 1) body st = (forUpToM n body st >>= body n) := by
  simp [forUpToM, List.range_succ, List.foldlM_append]

theorem forUpToM_zero {σ : Type} (body : Nat → σ → Except Fault σ) (st : σ) :
    forUpToM 0 body st = .ok st := rfl

/-- A loop whose body preserves a projection preserves it. -/
theorem forUpTo_keeps {σ α : Type} (π : σ → α) (n : Nat) (body : Nat → σ → σ)
    (h : ∀ i st, π (body i st) = π st) (st : σ) : π (forUpTo n body st) = π st := by
  induction n with
  | zero => rfl
  | succ n ih => rw [forUpTo_succ, h, ih]

@[simp] theorem digitalWrite_obj {W : Type} (hw : Host W) (p d : Nat) (st : St W) :
    (_digitalWrite hw p d st).obj = st.obj := by
  unfold _digitalWrite
  split_ifs <;> rfl

@[simp] theorem pinMode_obj {W : Type} (hw : Host W) (p d : Nat) (st : St W) :
    (_pinMode hw p d st).obj = st.obj := by
  unfold _pinMode
  split_ifs <;> rfl

@[simp] theorem pulseEnable_obj {W : Type} (hw : Host W) (st : St W) :
    (pulseEnable hw st).obj = st.obj := by
  simp [pulseEnable]

@[simp] theorem write4bits_obj {W : Type} (hw : Host W) (v : Nat) (st : St W) :
    (write4bits hw v st).obj = st.obj := by
  unfold write4bits
  split_ifs
  · rfl
  · simp only [emit_obj, pulseEnable_obj]
    exact forUpTo_keeps (fun st : St W => st.obj) 4 _ (fun i st => by simp) _

@[simp] theorem write8bits_obj {W : Type} (hw : Host W) (v : Nat) (st : St W) :
    (write8bits hw v st).obj = st.obj := by
  unfold write8bits
  split_ifs
  · rfl
  · simp only [pulseEnable_obj]
    exact forUpTo_keeps (fun st : St W => st.obj) 8 _ (fun i st => by simp) _

@[simp] theorem read4bits_obj {W : Type} (hw : Host W) (v m : Nat) (st : St W) :
    (read4bits hw v m st).2.obj = st.obj := by
  unfold read4bits
  split_ifs
  · rfl
  · simp only [digitalWrite_obj]
    rw [forUpTo_keeps (fun r : Nat × St W => r.2.obj) 4 _ (fun i st => by simp)]
    simp

@[simp] theorem read8bits_obj {W : Type} (hw : Host W) (v m : Nat) (st : St W) :
    (read8bits hw v m st).2.obj = st.obj := by
  unfold read8bits
  split_ifs
  · rfl
  · simp only [digitalWrite_obj]
    rw [forUpTo_keeps (fun r : Nat × St W => r.2.obj) 8 _ (fun i st => by simp)]
    simp

@[simp] theorem receive_obj {W : Type} (hw : Host W) (m : Nat) (st : St W) :
    (receive hw m st).2.obj = st.obj := by
  unfold receive
  simp only
  split_ifs <;> simp

/-- Function `isBusy` changes nothing of the object but `_currentcursorposition`. -/
theorem isBusy_obj {W : Type} (hw : Host W) (st : St W) :
    (isBusy hw st).2.obj =
      { st.obj with _currentcursorposition := (isBusy hw st).2.obj._currentcursorposition } := by
  unfold isBusy
  simp only
  rw [forUpTo_keeps (fun st : St W => st.obj) 8 _ (fun i st => by simp)]
  simp only [emit_obj, assign_obj, read4bits_obj]
  rw [forUpTo_keeps (fun st : St W => st.obj) 8 _ (fun i st => by simp)]

@[simp] theorem busFrame_obj {W : Type} (hw : Host W) (v m : Nat) (st : St W) :
    (busFrame hw v m st).obj = st.obj := by
  unfold busFrame
  simp only
  split_ifs <;> simp

theorem send_instr {W : Type} (hw : Host W) (v m : Nat) (st : St W) (hm : m ≠ _DDRAM_MODE) :
    send hw v m st = .ok (busFrame hw v m st) := by
  unfold send
  rw [if_neg hm]

theorem send_data {W : Type} (hw : Host W) (v : Nat) (st : St W)
    (hi : st.obj._currentbufferindex < _MAX_DDRAM_SIZE) :
    send hw v _DDRAM_MODE st = .ok (busFrame hw v _DDRAM_MODE (assign (shadowStore v) st)) := by
  unfold send
  rw [if_pos rfl, if_pos hi]

theorem send_overrun {W : Type} (hw : Host W) (v : Nat) (st : St W)
    (hi : ¬ st.obj._currentbufferindex < _MAX_DDRAM_SIZE) :
    send hw v _DDRAM_MODE st = .error (Fault.shadowOverrun st.obj._currentbufferindex) := by
  unfold send
  rw [if_pos rfl, if_neg hi]

@[simp] theorem command_eq {W : Type} (hw : Host W) (v : Nat) (st : St W) :
    command hw v st = .ok (busFrame hw v LOW st) :=
  send_instr hw v LOW st (by decide)

theorem setCursor_eq {W : Type} (hw : Host W) (col row : Nat) (st : St W)
    (hrow : row < 4) (hlines : ¬ row > st.obj._numlines) :
    setCursor hw col row st =
      .ok (busFrame hw (LCD_SETDDRAMADDR ||| ((col + row_offsets.getD row 0) % 256)) LOW
        (assign (fun o =>
          { o with
            _currentbufferindex := (index_offsets.getD row 0 + col) % 256
            _currentcursorposition := (col + row_offsets.getD row 0) % 256 }) st)) := by
  unfold setCursor
  simp only [if_neg hlines, if_pos hrow, command_eq, assign_obj]

theorem forUpTo_assign {W : Type} (n : Nat) (f : Nat → LCD → LCD) (st : St W) :
    forUpTo n (fun i st => assign (f i) st) st = assign (forUpTo n f) st := by
  induction n with
  | zero => rfl
  | succ n ih => rw [forUpTo_succ, ih]; simp only [assign, forUpTo_succ]

theorem clear_ok {W : Type} (hw : Host W) (st : St W) :
    ∃ x, clear hw st = .ok x ∧ x.obj = clearObj st.obj := by
  unfold clear
  simp only [bind, Except.bind, pure, Except.pure, command_eq]
  rw [setCursor_eq hw 0 0 _ (by decide) (by simp)]
  refine ⟨_, rfl, ?_⟩
  simp only [emit_obj, busFrame_obj, assign_obj, clearObj]
  split_ifs with h
  · rw [forUpTo_assign]; rfl
  · rfl

theorem bind_ok {α β : Type} (x : α) (f : α → Except Fault β) :
    ((Except.ok x : Except Fault α) >>= f) = f x := rfl

@[simp] theorem beginPins_obj {W : Type} (hw : Host W) (st : St W) :
    (beginPins hw st).obj = st.obj := by
  unfold beginPins
  split_ifs
  · simp only [emit_obj]
    exact forUpTo_keeps (fun st : St W => st.obj) 4 _ (fun i st => by simp) _
  · rfl
  · simp only [emit_obj]
    split_ifs <;> rfl

@[simp] theorem beginLinesLow_obj {W : Type} (hw : Host W) (st : St W) :
    (beginLinesLow hw st).obj = st.obj := by
  unfold beginLinesLow
  simp only
  split_ifs <;> simp

theorem beginBusWidth_ok {W : Type} (hw : Host W) (st : St W) :
    ∃ x, beginBusWidth hw st = .ok x ∧ x.obj = st.obj := by
  unfold beginBusWidth
  split_ifs
  · simp only [command_eq, bind_ok]
    exact ⟨_, rfl, by simp⟩
  · exact ⟨_, rfl, by simp⟩

theorem display_ok {W : Type} (hw : Host W) (st : St W) :
    ∃ x, display hw st = .ok x ∧
      x.obj = { st.obj with _displaycontrol := st.obj._displaycontrol ||| LCD_DISPLAYON } := by
  unfold display
  simp only [command_eq]
  exact ⟨_, rfl, by simp⟩

theorem begin_ok {W : Type} (hw : Host W) (cols lines dotsize : Nat) (st : St W) :
    ∃ x, begin hw cols lines dotsize st = .ok x ∧ x.obj = beginObj lines dotsize st.obj := by
  unfold begin
  simp only []
  obtain ⟨x1, h1, o1⟩ := beginBusWidth_ok hw (beginLinesLow hw (emit hw (.delayMicroseconds 50000)
    (assign (beginGeometry lines dotsize) (beginPins hw st))))
  rw [h1, bind_ok, command_eq, bind_ok]
  obtain ⟨x2, h2, o2⟩ := display_ok hw (assign (fun o =>
    { o with _displaycontrol := LCD_DISPLAYON ||| LCD_CURSOROFF ||| LCD_BLINKOFF })
    (busFrame hw (LCD_FUNCTIONSET ||| x1.obj._displayfunction) LOW x1))
  rw [h2, bind_ok]
  obtain ⟨x3, h3, o3⟩ := clear_ok hw x2
  rw [h3, bind_ok, command_eq]
  refine ⟨_, rfl, ?_⟩
  simp only [busFrame_obj, assign_obj, o3, o2, o1, beginLinesLow_obj, emit_obj, beginPins_obj,
    beginObj]

/-! ## Loops with an invariant -/

theorem forUpToM_inv {σ : Type} (P : Nat → σ → Prop) (n : Nat) (body : Nat → σ → Except Fault σ)
    (st : σ) (h0 : P 0 st)
    (hstep : ∀ i, i < n → ∀ x, P i x → ∃ y, body i x = .ok y ∧ P (i + 1) y) :
    ∃ y, forUpToM n body st = .ok y ∧ P n y := by
  induction n with
  | zero => exact ⟨st, rfl, h0⟩
  | succ n ih =>
    obtain ⟨y, hy, hP⟩ := ih (fun i hi x hx => hstep i (Nat.lt_succ_of_lt hi) x hx)
    obtain ⟨z, hz, hQ⟩ := hstep n (Nat.lt_succ_self n) y hP
    exact ⟨z, by rw [forUpToM_succ, hy, bind_ok, hz], hQ⟩

theorem set_getD_self (l : List Nat) (i d : Nat) : l.set i (l.getD i d) = l := by
  induction l generalizing i with
  | nil => rfl
  | cons a l ih =>
    cases i with
    | zero => rfl
    | succ i => rw [List.getD_cons_succ, List.set_cons_succ, ih]

theorem set_append_length (pre rest : List Nat) (a b : Nat) :
    (pre ++ a :: rest).set pre.length b = pre ++ b :: rest := by
  induction pre with
  | nil => rfl
  | cons p pre ih => simp [List.set, ih]

/-- The loop of `clear` blanks a prefix of the buffer. -/
theorem blank_prefix (k : Nat) (o : LCD) (hk : k ≤ o._expecteddramcontents.length) (hpos : 0 < k) :
    forUpTo k (fun i o =>
        { o with
          _expecteddramcontents := o._expecteddramcontents.set i _BLANK_CHAR
          _currentbufferindex := 0 }) o =
      { o with
        _expecteddramcontents :=
          List.replicate k _BLANK_CHAR ++ o._expecteddramcontents.drop k
        _currentbufferindex := 0 } := by
  induction k with
  | zero => exact absurd hpos (Nat.lt_irrefl 0)
  | succ k ih =>
    rw [forUpTo_succ]
    have hlt : k < o._expecteddramcontents.length := hk
    rcases Nat.eq_zero_or_pos k with h0 | hkpos
    · subst h0
      rw [forUpTo_zero]
      cases hb : o._expecteddramcontents with
      | nil => rw [hb] at hlt; exact absurd hlt (by simp)
      | cons a l => rfl
    · rw [ih (Nat.le_of_lt hlt) hkpos]
      have hd : o._expecteddramcontents.drop k =
          o._expecteddramcontents[k] :: o._expecteddramcontents.drop (k + 1) :=
        List.drop_eq_getElem_cons hlt
      have hset := set_append_length (List.replicate k _BLANK_CHAR)
        (o._expecteddramcontents.drop (k + 1)) o._expecteddramcontents[k] _BLANK_CHAR
      rw [List.length_replicate] at hset
      simp only [hd, hset]
      congr 1
      rw [List.replicate_succ', List.append_assoc]
      rfl

/-! ## Recovery -/

theorem beginObj_resetting (lines dotsize : Nat) (o : LCD) (h : o._isResetting = true) :
    beginObj lines dotsize o =
      { beginGeometry lines dotsize o with
        _displaycontrol := (LCD_DISPLAYON ||| LCD_CURSOROFF ||| LCD_BLINKOFF) ||| LCD_DISPLAYON
        _currentbufferindex := 0
        _currentcursorposition := 0
        _displaymode := LCD_ENTRYLEFT ||| LCD_ENTRYSHIFTDECREMENT } := by
  have hg : (beginGeometry lines dotsize o)._isResetting = true := by
    unfold beginGeometry
    simp only
    split_ifs <;> simp [h]
  simp only [beginObj, clearObj, hg]
  rfl

theorem beginGeometry_buffer (lines dotsize : Nat) (o : LCD) :
    (beginGeometry lines dotsize o)._expecteddramcontents = o._expecteddramcontents := by
  unfold beginGeometry
  simp only
  split_ifs <;> rfl

theorem beginGeometry_resetting (lines dotsize : Nat) (o : LCD) :
    (beginGeometry lines dotsize o)._isResetting = o._isResetting := by
  unfold beginGeometry
  simp only
  split_ifs <;> rfl

/-- The replay loop of `rewriteAll`, started at buffer index 0, stores every cell back
where it was and ends at buffer index `n`. -/
theorem replay_inv {W : Type} (hw : Host W) (O : LCD) (hO : O._currentbufferindex = 0)
    (n : Nat) (hn : n ≤ 80) (y : St W) (hy : y.obj = O) :
    ∃ z, forUpToM n
        (fun i st => send hw (st.obj._expecteddramcontents.getD i 0) _DDRAM_MODE st) y = .ok z ∧
      z.obj = { O with _currentbufferindex := n } := by
  refine forUpToM_inv (fun i (x : St W) => x.obj = { O with _currentbufferindex := i }) n _ y ?_ ?_
  · show y.obj = _
    rw [hy, ← hO]
  · intro i hi x hx
    have hlt : x.obj._currentbufferindex < _MAX_DDRAM_SIZE := by
      rw [hx]; exact Nat.lt_of_lt_of_le hi hn
    refine ⟨_, send_data hw _ x hlt, ?_⟩
    show (busFrame hw _ _ _).obj = _
    rw [busFrame_obj, assign_obj, hx]
    simp only [shadowStore, set_getD_self]
    have h256 : (i + 1) % 256 = i + 1 := Nat.mod_eq_of_lt (by omega)
    rw [h256]

theorem rewriteAll_ok {W : Type} (hw : Host W) (st : St W) :
    ∃ x, rewriteAll hw st = .ok x ∧
      x.obj = { beginObj 4 LCD_5x8DOTS st.obj with _currentbufferindex := 80 } := by
  unfold rewriteAll resync4BitMode
  obtain ⟨x0, h0, o0⟩ := begin_ok hw 20 4 LCD_5x8DOTS st
  rw [h0, bind_ok]
  have hidx : (beginObj 4 LCD_5x8DOTS st.obj)._currentbufferindex = 0 := by
    simp [beginObj, clearObj]
  exact replay_inv hw _ hidx 80 (Nat.le_refl 80) (emit hw (.delay 10) x0) (by rw [emit_obj, o0])

/-! ## The write path -/

theorem waitWhileBusy_cases {W : Type} (hw : Host W) (us fuel : Nat) (st : St W) :
    waitWhileBusy hw us fuel st = .error Fault.busyForever ∨
      ∃ x, waitWhileBusy hw us fuel st = .ok x ∧
        x.obj = { st.obj with _currentcursorposition := x.obj._currentcursorposition } := by
  induction fuel generalizing st with
  | zero => exact Or.inl rfl
  | succ fuel ih =>
    unfold waitWhileBusy
    simp only
    split_ifs with hb
    · rcases ih (emit hw (.delayMicroseconds us) (isBusy hw st).2) with h | ⟨x, hx, ho⟩
      · exact Or.inl h
      · refine Or.inr ⟨x, hx, ?_⟩
        rw [ho, emit_obj, isBusy_obj]
    · refine Or.inr ⟨_, rfl, isBusy_obj hw st⟩

@[simp] theorem injectPulse_obj {W : Type} (hw : Host W) (st : St W) :
    (injectPulse hw st).obj = st.obj := by
  unfold injectPulse
  simp only
  split_ifs <;> simp

theorem recover_ok {W : Type} (hw : Host W) (st : St W) :
    ∃ x, recover hw st = .ok x ∧
      x.obj =
        { beginObj 4 LCD_5x8DOTS { st.obj with _isResetting := true } with
          _currentbufferindex := 80
          _isResetting := false } := by
  unfold recover
  simp only
  obtain ⟨x, hx, ho⟩ := rewriteAll_ok hw (assign (fun o => { o with _isResetting := true }) st)
  rw [hx, bind_ok, command_eq]
  refine ⟨_, rfl, ?_⟩
  rw [busFrame_obj, assign_obj, ho, assign_obj]

theorem recover_buffer {W : Type} (hw : Host W) (st x : St W) (h : recover hw st = .ok x) :
    x.obj._expecteddramcontents = st.obj._expecteddramcontents ∧
      x.obj._isResetting = false := by
  obtain ⟨y, hy, ho⟩ := recover_ok hw st
  rw [hy] at h
  cases h
  rw [ho, beginObj_resetting _ _ _ rfl]
  exact ⟨beginGeometry_buffer _ _ _, rfl⟩

/-- What the first part of a `write` that starts inside the buffer does to the object,
unless a busy wait outlives its fuel. -/
theorem writeReadBack_cases {W : Type} (hw : Host W) (fuel v : Nat) (st : St W)
    (hidx : st.obj._currentbufferindex < 80) :
    writeReadBack hw fuel v st = .error Fault.busyForever ∨
      ∃ r, writeReadBack hw fuel v st = .ok r ∧
        r.2.obj._expecteddramcontents =
          st.obj._expecteddramcontents.set st.obj._currentbufferindex v ∧
        r.2.obj._currentbufferindex = st.obj._currentbufferindex + 1 ∧
        r.2.obj._isResetting = st.obj._isResetting := by
  unfold writeReadBack
  simp only
  have h0 := injectPulse_obj hw st
  generalize injectPulse hw st = s0 at h0 ⊢
  rcases waitWhileBusy_cases hw 100 fuel s0 with h1 | ⟨s1, h1, o1⟩
  · left; rw [h1]; rfl
  rw [h1, bind_ok]
  have hi1 : s1.obj._currentbufferindex < _MAX_DDRAM_SIZE := by
    rw [o1, h0]; exact hidx
  have hmode : HIGH = _DDRAM_MODE := rfl
  rw [hmode, send_data hw v s1 hi1, bind_ok]
  have o2 : (busFrame hw v _DDRAM_MODE (assign (shadowStore v) s1)).obj = shadowStore v s1.obj := by
    rw [busFrame_obj, assign_obj]
  generalize busFrame hw v _DDRAM_MODE (assign (shadowStore v) s1) = s2 at o2 ⊢
  rcases waitWhileBusy_cases hw 100 fuel s2 with h3 | ⟨s3, h3, o3⟩
  · left; rw [h3]; rfl
  rw [h3, bind_ok, command_eq, bind_ok, command_eq, bind_ok]
  refine Or.inr ⟨_, rfl, ?_, ?_, ?_⟩
  · show (busFrame hw _ _ _).obj._expecteddramcontents = _
    rw [busFrame_obj, receive_obj, busFrame_obj, o3]; simp only
    rw [o2, shadowStore]; simp only; rw [o1]; simp only; rw [h0]
  · show (busFrame hw _ _ _).obj._currentbufferindex = _
    rw [busFrame_obj, receive_obj, busFrame_obj, o3]; simp only
    rw [o2, shadowStore]; simp only; rw [o1]; simp only; rw [h0]
    exact Nat.mod_eq_of_lt (by omega)
  · show (busFrame hw _ _ _).obj._isResetting = _
    rw [busFrame_obj, receive_obj, busFrame_obj, o3]; simp only
    rw [o2, shadowStore]; simp only; rw [o1]; simp only; rw [h0]

theorem writeReadBack_overrun {W : Type} (hw : Host W) (fuel v : Nat) (st : St W)
    (hidx : ¬ st.obj._currentbufferindex < 80) (r : Nat × St W) :
    writeReadBack hw fuel v st ≠ .ok r := by
  unfold writeReadBack
  simp only
  have h0 := injectPulse_obj hw st
  generalize injectPulse hw st = s0 at h0 ⊢
  rcases waitWhileBusy_cases hw 100 fuel s0 with h1 | ⟨s1, h1, o1⟩
  · rw [h1]; intro h; cases h
  rw [h1, bind_ok]
  have hi1 : ¬ s1.obj._currentbufferindex < _MAX_DDRAM_SIZE := by
    rw [o1, h0]; exact hidx
  have hmode : HIGH = _DDRAM_MODE := rfl
  rw [hmode, send_overrun hw v s1 hi1]
  intro h; cases h

/-- What a `write` that starts inside the buffer does to the object, unless a busy wait
outlives its fuel. -/
theorem write_cases {W : Type} (hw : Host W) (fuel v : Nat) (st : St W)
    (hidx : st.obj._currentbufferindex < 80) :
    write hw fuel v st = .error Fault.busyForever ∨
      ∃ x, write hw fuel v st = .ok x ∧
        x.obj._expecteddramcontents =
          st.obj._expecteddramcontents.set st.obj._currentbufferindex v ∧
        x.obj._currentbufferindex = st.obj._currentbufferindex + 1 ∧
        (st.obj._isResetting = false → x.obj._isResetting = false) := by
  unfold write
  rcases writeReadBack_cases hw fuel v st hidx with h | ⟨r, hr, hbuf, hix, hrs⟩
  · left; rw [h]; rfl
  rw [hr, bind_ok]
  simp only
  have h256 : r.2.obj._currentbufferindex % 256 = st.obj._currentbufferindex + 1 := by
    rw [hix]; exact Nat.mod_eq_of_lt (by omega)
  right
  by_cases hne : r.1 ≠ v
  · rw [if_pos hne]
    obtain ⟨s5, h5, _⟩ := recover_ok hw r.2
    obtain ⟨hb5, hr5⟩ := recover_buffer hw r.2 s5 h5
    rw [h5, bind_ok]
    exact ⟨_, rfl, by rw [assign_obj]; exact hb5.trans hbuf, by rw [assign_obj]; exact h256,
      fun _ => by rw [assign_obj]; exact hr5⟩
  · rw [if_neg hne]
    exact ⟨_, rfl, by rw [assign_obj]; exact hbuf, by rw [assign_obj]; exact h256,
      fun h => by rw [assign_obj]; exact hrs.trans h⟩

theorem write_overrun {W : Type} (hw : Host W) (fuel v : Nat) (st : St W)
    (hidx : ¬ st.obj._currentbufferindex < 80) (x : St W) :
    write hw fuel v st ≠ .ok x := by
  unfold write
  cases h : writeReadBack hw fuel v st with
  | error e => intro h'; cases h'
  | ok r => exact absurd h (writeReadBack_overrun hw fuel v st hidx r)

theorem foldlM_single {σ β : Type} (f : σ → β → Except Fault σ) (z : σ) (b : β) :
    [b].foldlM f z = f z b := by
  rw [List.foldlM_cons]
  cases f z b <;> rfl

theorem take_succ_getD (B : List Nat) (n : Nat) (hlt : n < B.length) :
    B.take (n + 1) = B.take n ++ [B.getD n 0] := by
  rw [List.take_succ, List.getD_eq_getElem?_getD, List.getElem?_eq_getElem hlt]
  rfl

/-- The replay loop sends the cells the buffer held when the loop started. -/
theorem replay_eq {W : Type} (hw : Host W) (B : List Nat) (n : Nat) (hn : n ≤ 80)
    (hB : n ≤ B.length) (y : St W) (hy : y.obj._expecteddramcontents = B)
    (hidx : y.obj._currentbufferindex = 0) :
    forUpToM n (fun i st => send hw (st.obj._expecteddramcontents.getD i 0) _DDRAM_MODE st) y =
      sendCells hw (B.take n) y := by
  induction n with
  | zero => rw [forUpToM_zero, List.take_zero, sendCells, List.foldlM_nil]; rfl
  | succ n ih =>
    have hlt : n < B.length := hB
    have ih' := ih (Nat.le_of_succ_le hn) (Nat.le_of_lt hlt)
    obtain ⟨z, hz, hzo⟩ := replay_inv hw y.obj hidx n (Nat.le_of_succ_le hn) y rfl
    have hzb : z.obj._expecteddramcontents = B := by rw [hzo]; exact hy
    rw [forUpToM_succ, take_succ_getD B n hlt, hz, bind_ok, hzb]
    rw [hz] at ih'
    unfold sendCells at ih' ⊢
    rw [List.foldlM_append, ← ih', bind_ok, foldlM_single]

/-! ## Claims -/

/-- C1: for every column and every row in 0..3 below the configured line count,
`setCursor(col, row)` sets the buffer index to `{0,40,20,60}[row] + col` and the
believed DDRAM address to `{0x00,0x40,0x14,0x54}[row] + col`, both in 8-bit arithmetic,
and what it does on the bus is `command(0x80 | address)`. -/
theorem setCursor_within_lines {W : Type} (hw : Host W) (col row : Nat) (st : St W)
    (hrow : row < 4) (hlines : row < st.obj._numlines) :
    ∃ x, setCursor hw col row st = .ok x ∧
      x.obj._currentbufferindex = ([0, 40, 20, 60].getD row 0 + col) % 256 ∧
      x.obj._currentcursorposition = ([0x00, 0x40, 0x14, 0x54].getD row 0 + col) % 256 ∧
      setCursor hw col row st =
        command hw (0x80 ||| (([0x00, 0x40, 0x14, 0x54].getD row 0 + col) % 256))
          (assign (fun o =>
            { o with
              _currentbufferindex := ([0, 40, 20, 60].getD row 0 + col) % 256
              _currentcursorposition := ([0x00, 0x40, 0x14, 0x54].getD row 0 + col) % 256 })
            st) := by
  have h := setCursor_eq hw col row st hrow (Nat.not_lt.mpr (Nat.le_of_lt hlines))
  rw [Nat.add_comm col] at h
  refine ⟨_, h, ?_, ?_, ?_⟩
  · rw [busFrame_obj, assign_obj]; rfl
  · rw [busFrame_obj, assign_obj]; rfl
  · rw [h, command_eq]; rfl

set_option maxRecDepth 100000 in
/-- C1, at a concrete input: after `begin(20,4,0)`, `setCursor(7, 2)` gives buffer index
27 and DDRAM address 0x1B. -/
theorem setCursor_within_lines_witness :
    ∃ x, setCursor scripted 7 2 (ready4 []) = .ok x ∧
      x.obj._currentbufferindex = 27 ∧ x.obj._currentcursorposition = 0x1B := by
  obtain ⟨x, hx, hi, hp, _⟩ :=
    setCursor_within_lines scripted 7 2 (ready4 []) (by decide) (by decide!)
  exact ⟨x, hx, hi, hp⟩

/-- Rows above the configured line count are clamped to the last row: for 1 to 4 lines
and `row > numlines`, `setCursor(col, row)` is `setCursor(col, numlines - 1)`. -/
theorem setCursor_above_numlines {W : Type} (hw : Host W) (col row : Nat) (st : St W)
    (h1 : 1 ≤ st.obj._numlines) (h4 : st.obj._numlines ≤ 4) (hrow : row > st.obj._numlines) :
    setCursor hw col row st = setCursor hw col (st.obj._numlines - 1) st := by
  have hmod : (st.obj._numlines + 255) % 256 = st.obj._numlines - 1 := by omega
  have hle : ¬ st.obj._numlines - 1 > st.obj._numlines := by omega
  unfold setCursor
  simp only [if_pos hrow, if_neg hle, hmod]

set_option maxRecDepth 100000 in
/-- C2, the code at `row = numlines`: with two lines configured `setCursor(0, 2)` is not
clamped to row 1 (buffer index 40, address 0x40) but takes row 2 of the tables (buffer
index 20, address 0x14); with four lines configured `setCursor(0, 4)` reads past the
tables. -/
theorem setCursor_row_equal_numlines_not_clamped :
    (objOf (begin scripted 16 2 0 (demo4 []) >>= setCursor scripted 0 2)).map
        (fun o => (o._currentbufferindex, o._currentcursorposition)) = some (20, 0x14) ∧
    (objOf (begin scripted 16 2 0 (demo4 []) >>= setCursor scripted 0 1)).map
        (fun o => (o._currentbufferindex, o._currentcursorposition)) = some (40, 0x40) ∧
    faultOf (begin scripted 20 4 0 (demo4 []) >>= setCursor scripted 0 4) =
        some (Fault.rowTableOverrun 4) := by
  decide!

/-- Writes that start right after the bytes `pre` keep extending the prefix. -/
theorem writeAll_shadow {W : Type} (hw : Host W) (fuel : Nat) (bs pre : List Nat) (st : St W)
    (hres : st.obj._isResetting = false)
    (hidx : st.obj._currentbufferindex = pre.length)
    (hbuf : st.obj._expecteddramcontents =
      pre ++ List.replicate (80 - pre.length) _BLANK_CHAR)
    (hn : pre.length + bs.length ≤ 80) :
    writeAll hw fuel bs st = .error Fault.busyForever ∨
      ∃ x, writeAll hw fuel bs st = .ok x ∧
        x.obj._expecteddramcontents =
          pre ++ bs ++ List.replicate (80 - (pre.length + bs.length)) _BLANK_CHAR := by
  induction bs generalizing pre st with
  | nil =>
    refine Or.inr ⟨st, rfl, ?_⟩
    rw [hbuf, List.append_nil, List.length_nil, Nat.add_zero]
  | cons b bs ih =>
    rw [List.length_cons] at hn
    have hlt : st.obj._currentbufferindex < 80 := by omega
    unfold writeAll
    rw [List.foldlM_cons]
    rcases write_cases hw fuel b st hlt with h | ⟨x, hx, hxb, hxi, hxr⟩
    · left; rw [h]; rfl
    · rw [hx, bind_ok]
      have hsplit : 80 - pre.length = (80 - (pre ++ [b]).length) + 1 := by
        rw [List.length_append, List.length_singleton]; omega
      have hb' : x.obj._expecteddramcontents =
          (pre ++ [b]) ++ List.replicate (80 - (pre ++ [b]).length) _BLANK_CHAR := by
        rw [hxb, hbuf, hidx, hsplit, List.replicate_succ, set_append_length,
          List.append_assoc, List.singleton_append]
      have hi' : x.obj._currentbufferindex = (pre ++ [b]).length := by
        rw [hxi, hidx, List.length_append, List.length_singleton]
      have hn' : (pre ++ [b]).length + bs.length ≤ 80 := by
        rw [List.length_append, List.length_singleton]; omega
      have := ih (pre ++ [b]) x (hxr hres) hi' hb' hn'
      unfold writeAll at this
      rcases this with h | ⟨y, hy, hyb⟩
      · exact Or.inl h
      · refine Or.inr ⟨y, hy, ?_⟩
        have harith : (pre ++ [b]).length + bs.length = pre.length + (b :: bs).length := by
          rw [List.length_append, List.length_singleton, List.length_cons]; omega
        rw [hyb, harith, List.append_assoc pre [b] bs, List.singleton_append]

theorem clearObj_fresh (o : LCD) (hres : o._isResetting = false)
    (hlen : o._expecteddramcontents.length = 80) :
    (clearObj o)._isResetting = false ∧ (clearObj o)._currentbufferindex = 0 ∧
      (clearObj o)._expecteddramcontents = List.replicate 80 _BLANK_CHAR := by
  have hdrop : o._expecteddramcontents.drop 80 = [] :=
    List.drop_eq_nil_of_le (Nat.le_of_eq hlen)
  unfold clearObj
  have h80 : _MAX_DDRAM_SIZE = 80 := rfl
  rw [if_pos hres, h80, blank_prefix 80 o (Nat.le_of_eq hlen.symm) (by decide)]
  simp only [hres, hdrop, List.append_nil, and_self]

theorem beginObj_fresh (lines dotsize : Nat) (o : LCD) (hres : o._isResetting = false)
    (hlen : o._expecteddramcontents.length = 80) :
    (beginObj lines dotsize o)._isResetting = false ∧
      (beginObj lines dotsize o)._currentbufferindex = 0 ∧
      (beginObj lines dotsize o)._expecteddramcontents = List.replicate 80 _BLANK_CHAR := by
  have hg := beginGeometry_resetting lines dotsize o
  have hb := beginGeometry_buffer lines dotsize o
  exact clearObj_fresh
    { beginGeometry lines dotsize o with
      _displaycontrol := (LCD_DISPLAYON ||| LCD_CURSOROFF ||| LCD_BLINKOFF) ||| LCD_DISPLAYON }
    (hg.trans hres) ((congrArg List.length hb).trans hlen)

/-- C3: after `begin(20,4,0)` on a raw 4-bit transport and `write` of `n ≤ 80` bytes from
row 0 column 0, the shadow buffer is those bytes followed by blanks, whatever the pins
read (so also when writes trigger recovery); the run ends unless a busy wait never
ends. -/
theorem shadow_after_begin_and_writes {W : Type} (hw : Host W) (fuel : Nat)
    (rs rw enable d0 d1 d2 d3 : Nat) (st : St W) (bs : List Nat)
    (hres : st.obj._isResetting = false)
    (hlen : st.obj._expecteddramcontents.length = 80)
    (hn : bs.length ≤ 80) :
    (begin hw 20 4 0 { st with obj := ctor4rw rs rw enable d0 d1 d2 d3 st.obj }
        >>= writeAll hw fuel bs) = .error Fault.busyForever ∨
      ∃ x, (begin hw 20 4 0 { st with obj := ctor4rw rs rw enable d0 d1 d2 d3 st.obj }
          >>= writeAll hw fuel bs) = .ok x ∧
        x.obj._expecteddramcontents = bs ++ List.replicate (80 - bs.length) _BLANK_CHAR := by
  obtain ⟨x0, h0, o0⟩ :=
    begin_ok hw 20 4 0 { st with obj := ctor4rw rs rw enable d0 d1 d2 d3 st.obj }
  obtain ⟨hr, hi, hb⟩ := beginObj_fresh 4 0 (ctor4rw rs rw enable d0 d1 d2 d3 st.obj) hres hlen
  rw [h0, bind_ok]
  have := writeAll_shadow hw fuel bs [] x0 (by rw [o0]; exact hr) (by rw [o0]; exact hi)
    (by rw [o0]; exact hb) (by simpa using hn)
  simpa using this

set_option maxRecDepth 100000 in
/-- C3, at a concrete input: "HELLO WORLD FROM LCD" written after `begin(20,4,0)`, the
first write triggering a recovery, leaves cells 0-19 equal to the ASCII codes and cells
20-79 blank. -/
theorem shadow_after_begin_and_writes_witness :
    ∃ x, (begin scripted 20 4 0 (demo4 helloScript) >>= writeAll scripted 1 helloBytes) = .ok x ∧
      x.obj._expecteddramcontents =
        [72, 69, 76, 76, 79, 32, 87, 79, 82, 76, 68, 32, 70, 82, 79, 77, 32, 76, 67, 68]
          ++ List.replicate 60 _BLANK_CHAR := by
  have h := shadow_after_begin_and_writes scripted 1 12 10 11 5 4 3 2
    { obj := zeroed, _SPIbuff := 0, world := helloScript } helloBytes
    (by decide) (by decide) (by decide)
  rcases h with h | h
  · have hf : faultOf (begin scripted 20 4 0 (demo4 helloScript)
        >>= writeAll scripted 1 helloBytes) = none := by decide!
    have h' : begin scripted 20 4 0 (demo4 helloScript) >>= writeAll scripted 1 helloBytes =
        .error Fault.busyForever := h
    rw [h'] at hf
    cases hf
  · exact h

/-- C6: `write(v)` ends with the buffer index exactly one past where it started, on
every path through the read-back (match or recovery); it returns from every start inside
the buffer unless a busy wait never ends. -/
theorem write_advances_bufferindex {W : Type} (hw : Host W) (fuel v : Nat) (st : St W) :
    (∀ x, write hw fuel v st = .ok x →
      x.obj._currentbufferindex = st.obj._currentbufferindex + 1) ∧
    (st.obj._currentbufferindex < 80 →
      write hw fuel v st = .error Fault.busyForever ∨ ∃ x, write hw fuel v st = .ok x) := by
  constructor
  · intro x hx
    by_cases hidx : st.obj._currentbufferindex < 80
    · rcases write_cases hw fuel v st hidx with h | ⟨y, hy, _, hyi, _⟩
      · rw [h] at hx; cases hx
      · rw [hy] at hx; cases hx; exact hyi
    · exact absurd hx (write_overrun hw fuel v st hidx x)
  · intro hidx
    rcases write_cases hw fuel v st hidx with h | ⟨y, hy, _⟩
    · exact Or.inl h
    · exact Or.inr ⟨y, hy⟩

set_option maxRecDepth 100000 in
/-- C6, at concrete inputs: from buffer index 0 after `begin(20,4,0)`, `write(0x48)` ends
at buffer index 1 both when the read-back gives 0x48 and when it gives 0 and recovery
runs. -/
theorem write_advances_bufferindex_witness :
    (∃ x, write scripted 1 0x48 (ready4 (quietWrite 0x48)) = .ok x ∧
      x.obj._currentbufferindex = 1) ∧
    (∃ x, write scripted 1 0x48 (ready4 (quietWrite 0)) = .ok x ∧
      x.obj._currentbufferindex = 1) := by
  constructor
  · have h := write_advances_bufferindex scripted 1 0x48 (ready4 (quietWrite 0x48))
    have hi : (ready4 (quietWrite 0x48)).obj._currentbufferindex = 0 := by decide!
    rcases h.2 (by rw [hi]; decide) with hb | ⟨x, hx⟩
    · have hf : faultOf (write scripted 1 0x48 (ready4 (quietWrite 0x48))) = none := by decide!
      rw [hb] at hf; cases hf
    · exact ⟨x, hx, by rw [h.1 x hx, hi]⟩
  · have h := write_advances_bufferindex scripted 1 0x48 (ready4 (quietWrite 0))
    have hi : (ready4 (quietWrite 0)).obj._currentbufferindex = 0 := by decide!
    rcases h.2 (by rw [hi]; decide) with hb | ⟨x, hx⟩
    · have hf : faultOf (write scripted 1 0x48 (ready4 (quietWrite 0))) = none := by decide!
      rw [hb] at hf; cases hf
    · exact ⟨x, hx, by rw [h.1 x hx, hi]⟩

/-- C7: with the reentrancy guard set, `rewriteAll` re-initialises (`resync4BitMode`
succeeds and blanks no cell), then does exactly what sending the 80 cells the shadow
buffer held at the start, in order, does; it returns with every cell as before. -/
theorem rewriteAll_replays_shadow {W : Type} (hw : Host W) (st : St W)
    (hres : st.obj._isResetting = true)
    (hlen : st.obj._expecteddramcontents.length = 80) :
    ∃ x, resync4BitMode hw st = .ok x ∧
      x.obj._expecteddramcontents = st.obj._expecteddramcontents ∧
      rewriteAll hw st =
        sendCells hw st.obj._expecteddramcontents (emit hw (.delay 10) x) ∧
      ∃ y, rewriteAll hw st = .ok y ∧
        y.obj._expecteddramcontents = st.obj._expecteddramcontents := by
  obtain ⟨x, hx, ho⟩ := begin_ok hw 20 4 LCD_5x8DOTS st
  have hob : x.obj._expecteddramcontents = st.obj._expecteddramcontents := by
    rw [ho, beginObj_resetting _ _ _ hres]; exact beginGeometry_buffer _ _ _
  have hoi : x.obj._currentbufferindex = 0 := by
    rw [ho, beginObj_resetting _ _ _ hres]
  refine ⟨x, hx, hob, ?_, ?_⟩
  · have h := replay_eq hw st.obj._expecteddramcontents 80 (Nat.le_refl 80)
      (Nat.le_of_eq hlen.symm) (emit hw (.delay 10) x) hob hoi
    rw [List.take_of_length_le (Nat.le_of_eq hlen)] at h
    unfold rewriteAll
    rw [show resync4BitMode hw st = .ok x from hx, bind_ok]
    exact h
  · obtain ⟨y, hy, hyo⟩ := rewriteAll_ok hw st
    refine ⟨y, hy, ?_⟩
    rw [hyo, beginObj_resetting _ _ _ hres]
    exact beginGeometry_buffer _ _ _

set_option maxRecDepth 100000 in
/-- C7, at a concrete input: the demo object holding "HI", guard set. -/
theorem rewriteAll_replays_shadow_witness :
    recovering4.obj._expecteddramcontents = [72, 73] ++ List.replicate 78 _BLANK_CHAR ∧
    ∃ x, resync4BitMode scripted recovering4 = .ok x ∧
      x.obj._expecteddramcontents = recovering4.obj._expecteddramcontents ∧
      rewriteAll scripted recovering4 =
        sendCells scripted recovering4.obj._expecteddramcontents
          (emit scripted (.delay 10) x) ∧
      ∃ y, rewriteAll scripted recovering4 = .ok y ∧
        y.obj._expecteddramcontents = recovering4.obj._expecteddramcontents :=
  ⟨by decide!, rewriteAll_replays_shadow scripted recovering4 (by decide!) (by decide!)⟩

set_option maxRecDepth 100000 in
/-- Function `receive` after `send` on the 4-bit raw transport gives back the byte sent,
for every byte. -/
theorem loopback_4bit : ∀ v, v < 256 → loopback (demo4 []).obj v = some v := by decide!

set_option maxRecDepth 100000 in
/-- Function `receive` after `send` on the 8-bit raw transport gives back the byte sent
with its bits in reverse order, for every byte. -/
theorem loopback_8bit : ∀ v, v < 256 → loopback (demo8 []).obj v = some (reverse8 v) := by
  decide!

set_option maxRecDepth 100000 in
/-- C4, the code on the 8-bit raw transport: the data byte 0x01, sent and then read
with every pin presenting the level `send` drove on it, comes back as 0x80; on the
4-bit transport it comes back as 0x01. -/
theorem receive_8bit_reverses_bits :
    loopback (demo8 []).obj 0x01 = some 0x80 ∧ loopback (demo4 []).obj 0x01 = some 0x01 := by
  decide!

set_option maxRecDepth 100000 in
/-- C8, the code at `home()`: after `begin(20,4,0)` and `setCursor(5,1)` the buffer index
is 45 and the believed DDRAM address 0x45, and `home()` leaves both as they are, while
`clear()` from the same state sets both to 0. -/
theorem home_keeps_cursor_state :
    (objOf (begin scripted 20 4 0 (demo4 []) >>= setCursor scripted 5 1)).map
        (fun o => (o._currentbufferindex, o._currentcursorposition)) = some (45, 0x45) ∧
    (objOf (begin scripted 20 4 0 (demo4 []) >>= setCursor scripted 5 1 >>= home scripted)).map
        (fun o => (o._currentbufferindex, o._currentcursorposition)) = some (45, 0x45) ∧
    (objOf (begin scripted 20 4 0 (demo4 []) >>= setCursor scripted 5 1 >>= clear scripted)).map
        (fun o => (o._currentbufferindex, o._currentcursorposition)) = some (0, 0) := by
  decide!

/-- Function `home` changes nothing of the object, whatever the state and the host. -/
theorem home_obj {W : Type} (hw : Host W) (st : St W) :
    ∃ x, home hw st = .ok x ∧ x.obj = st.obj := by
  unfold home
  rw [command_eq, bind_ok]
  exact ⟨_, rfl, by rw [emit_obj, busFrame_obj]⟩

set_option maxRecDepth 100000 in
/-- C9, the code at a recovery: configured by `begin(16,1,0)`, `cursor()` and
`rightToLeft()` the object has line count 1, function-set 0x00, display-control 0x06 and
entry-mode 0x00; after one `write(0x41)` whose read-back gives 0 it has line count 4,
function-set 0x08, display-control 0x04 and entry-mode 0x02. -/
theorem recovery_resets_configuration :
    (objOf (begin scripted 16 1 0 (demo4 []) >>= cursor scripted >>= rightToLeft scripted)).map
        (fun o => (o._numlines, o._displayfunction, o._displaycontrol, o._displaymode))
      = some (1, 0x00, 0x06, 0x00) ∧
    (objOf (begin scripted 16 1 0 (demo4 (quietWrite 0)) >>= cursor scripted
        >>= rightToLeft scripted >>= write scripted 1 0x41)).map
        (fun o => (o._numlines, o._displayfunction, o._displaycontrol, o._displaymode))
      = some (4, 0x08, 0x04, 0x02) := by
  decide!

set_option maxRecDepth 100000 in
/-- C10, the code at the end of the buffer: after `begin(20,4,0)` and `setCursor(19,3)`
the buffer index is 79; `write(0x41)` stores at 79, and the next `write(0x42)` stores
at index 80, outside the 80-cell buffer. -/
theorem write_past_buffer_end :
    (objOf (begin scripted 20 4 0 (demo4 (quietWrite 0x41)) >>= setCursor scripted 19 3)).map
        (fun o => o._currentbufferindex) = some 79 ∧
    faultOf (begin scripted 20 4 0 (demo4 (quietWrite 0x41)) >>= setCursor scripted 19 3
        >>= write scripted 1 0x41 >>= write scripted 1 0x42) = some (Fault.shadowOverrun 80) := by
  decide!

/-! ## The driver on the simulated transport -/

theorem digitalWrite_board (p d : Nat) (st : St Board) (hW : Wired st.obj) :
    _digitalWrite demoBoard p d st = { st with world := drive p d st.world } := by
  unfold _digitalWrite
  rw [if_neg (by rw [hW.i2c]; decide), if_neg (by rw [hW.spi]; decide)]
  rfl

theorem pinMode_board (p d : Nat) (st : St Board) (hW : Wired st.obj) :
    _pinMode demoBoard p d st = st := by
  unfold _pinMode
  rw [if_neg (by rw [hW.i2c]; decide), if_neg (by rw [hW.spi]; decide)]
  rfl

@[simp] theorem emit_board_delayMicroseconds (n : Nat) (st : St Board) :
    emit demoBoard (.delayMicroseconds n) st = st := rfl

@[simp] theorem emit_board_delay (n : Nat) (st : St Board) :
    emit demoBoard (.delay n) st = st := rfl

@[simp] theorem emit_board_noInterrupts (st : St Board) :
    emit demoBoard .noInterrupts st = st := rfl

@[simp] theorem emit_board_interrupts (st : St Board) :
    emit demoBoard .interrupts st = st := rfl

@[simp] theorem emit_board_pinMode (p d : Nat) (st : St Board) :
    emit demoBoard (.pinMode p d) st = st := rfl

theorem nibble_bits (x : Nat) :
    x % 2 + 2 * (x >>> 1 % 2) + 4 * (x >>> 2 % 2) + 8 * (x >>> 3 % 2) = x % 16 := by
  simp only [Nat.shiftRight_eq_div_pow]
  omega

theorem write4bits_board (x : Nat) (st : St Board) (hW : Wired st.obj)
    (hE : st.world.level 11 = 0) (hRW : st.world.level 10 = 0) :
    ∃ w, write4bits demoBoard x st = { st with world := w } ∧
      w.ctrl = writeCycle (st.world.level 12) (x % 16) st.world.ctrl ∧
      w.level 11 = 0 ∧ w.level 10 = 0 ∧ w.level 12 = st.world.level 12 ∧
      w.rand = st.world.rand := by
  unfold write4bits
  rw [if_neg (by rw [hW.i2c]; decide)]
  simp only [forUpTo, List.range_succ, List.range_zero, List.nil_append, List.cons_append,
    List.foldl_cons, List.foldl_nil, pulseEnable, pinMode_obj, digitalWrite_obj, emit_obj,
    emit_board_delayMicroseconds, emit_board_noInterrupts, emit_board_interrupts]
  simp only [dataPin, hW.data, hW.en, List.getD_cons_zero, List.getD_cons_succ]
  have hb := nibble_bits x
  simp only [pinMode_board, digitalWrite_board, hW]
  refine ⟨_, rfl, ?_, ?_, ?_, ?_, ?_⟩
  · simp [drive, demoBoard, board, hE, hRW, LOW, HIGH]
    rw [hb]
  · simp [drive, demoBoard, board, LOW]
  · simp [drive, demoBoard, board, hRW]
  · simp [drive, demoBoard, board]
  · simp [drive, demoBoard, board]

theorem byte_of_nibbles (v : Nat) (hv : v < 256) : (v >>> 4) % 16 * 16 + v % 16 = v := by
  simp only [Nat.shiftRight_eq_div_pow]
  omega

theorem writeCycle_pair (rs hi lo : Nat) (c : Ctrl) (hd : c.dl8 = false) (hh : c.half = false)
    (h0 : c.hi = 0) : writeCycle rs lo (writeCycle rs hi c) = accept rs (hi * 16 + lo) c := by
  cases c
  simp_all [writeCycle]

/-- One bus frame on the simulated transport hands the controller the two nibbles. -/
theorem busFrame_board (v mode : Nat) (st : St Board) (hW : Wired st.obj)
    (hE : st.world.level 11 = 0) :
    ∃ w, busFrame demoBoard v mode st = { st with world := w } ∧
      w.ctrl = writeCycle mode (v % 16) (writeCycle mode ((v >>> 4) % 16) st.world.ctrl) ∧
      w.level 11 = 0 ∧ w.rand = st.world.rand := by
  unfold busFrame
  simp only [emit_board_delayMicroseconds]
  have hrw : st.obj._rw_pin ≠ 255 := by rw [hW.rw]; decide
  have hfour : ¬ (st.obj._displayfunction &&& LCD_8BITMODE ≠ 0) := by rw [hW.four]; decide
  simp only [digitalWrite_obj, if_pos hrw, if_neg hfour]
  simp only [digitalWrite_board, hW, hW.rs, hW.rw]
  obtain ⟨w1, h1, c1, e1, r1, s1, n1⟩ := write4bits_board (v >>> 4)
    { st with world := drive 10 LOW (drive 12 mode st.world) } hW
    (by simp [drive, demoBoard, board, hE]) (by simp [drive, demoBoard, board, LOW])
  rw [h1]
  obtain ⟨w2, h2, c2, e2, r2, s2, n2⟩ := write4bits_board v
    { st with world := w1 } hW e1 r1
  rw [h2]
  refine ⟨w2, rfl, ?_, e2, ?_⟩
  · rw [c2, c1, s1]
    simp [drive, demoBoard, board]
  · rw [n2, n1]
    simp [drive, demoBoard, board]

/-- One bus frame between synced driver and controller delivers the byte. -/
theorem busFrame_synced (v mode : Nat) (st : St Board) (hW : Wired st.obj)
    (hS : Synced st.world) (hv : v < 256) :
    ∃ w, busFrame demoBoard v mode st = { st with world := w } ∧
      w.ctrl = accept mode v st.world.ctrl ∧ w.level 11 = 0 ∧ w.rand = st.world.rand := by
  obtain ⟨w, h, c, e, n⟩ := busFrame_board v mode st hW hS.en
  refine ⟨w, h, ?_, e, n⟩
  rw [c, writeCycle_pair _ _ _ _ hS.dl8 hS.half hS.hi, byte_of_nibbles v hv]

theorem read4bits_board (value mode : Nat) (st : St Board) (hW : Wired st.obj) :
    ∃ w, read4bits demoBoard value mode st =
        (pack value (readNibble mode st.world.ctrl), { st with world := w }) ∧
      w.ctrl = readCycle mode st.world.ctrl ∧
      w.level 11 = 0 ∧ w.rand = st.world.rand := by
  unfold read4bits
  rw [if_neg (by rw [hW.i2c]; decide)]
  simp only [forUpTo, List.range_succ, List.range_zero, List.nil_append, List.cons_append,
    List.foldl_cons, List.foldl_nil, pinMode_obj, digitalWrite_obj, emit_obj,
    emit_board_delayMicroseconds]
  simp only [dataPin, hW.data, hW.en, hW.rs, hW.rw, List.getD_cons_zero, List.getD_cons_succ]
  simp only [pinMode_board, digitalWrite_board, hW]
  simp [drive, demoBoard, board, HIGH, LOW, pack]

theorem pack_zero : ∀ n, n < 16 → pack 0 n = n := by decide

set_option maxRecDepth 100000 in
theorem pack_high : ∀ h, h < 16 → ∀ l, l < 16 → pack ((h <<< 4) % 256) l = h * 16 + l := by
  decide!

theorem busy_bit_clear : ∀ a, a < 128 → a &&& (1 <<< 7) = 0 ∧ andNot8 a (1 <<< 7) = a := by
  decide

theorem readNibble_first (rs : Nat) (c : Ctrl) (hd : c.dl8 = false) (hh : c.half = false) :
    readNibble rs c = outByte rs c / 16 % 16 := by
  simp [readNibble, hd, hh]

theorem readNibble_second (rs : Nat) (c : Ctrl) (hd : c.dl8 = false) :
    readNibble rs { c with half := true } = outByte rs c % 16 := by
  simp [readNibble, hd, outByte]

theorem readCycle_first (rs : Nat) (c : Ctrl) (hd : c.dl8 = false) (hh : c.half = false) :
    readCycle rs c = { c with half := true } := by
  simp [readCycle, hd, hh]

theorem readCycle_second_data (c : Ctrl) (hd : c.dl8 = false) (hh : c.half = false) :
    readCycle 1 { c with half := true } = { c with ac := stepAddr c c.incr } := by
  cases c
  simp_all [readCycle, stepAddr]

theorem readCycle_second_instr (c : Ctrl) (hd : c.dl8 = false) (hh : c.half = false) :
    readCycle 0 { c with half := true } = c := by
  cases c
  simp_all [readCycle]

/-- Two nibble reads between synced driver and controller give the byte the controller
presents, and leave its state to the second read cycle. -/
theorem read_pair (mode : Nat) (st : St Board) (hW : Wired st.obj) (hS : Synced st.world) :
    ∃ w1 w2 : Board, read4bits demoBoard
        ((read4bits demoBoard 0 mode st).1 <<< 4 % 256) mode (read4bits demoBoard 0 mode st).2 =
        (outByte mode st.world.ctrl % 256, { st with world := w2 }) ∧
      w1.ctrl = { st.world.ctrl with half := true } ∧
      w2.ctrl = readCycle mode w1.ctrl ∧
      w2.level 11 = 0 ∧ w2.rand = st.world.rand := by
  obtain ⟨w1, h1, c1, e1, n1⟩ := read4bits_board 0 mode st hW
  rw [h1]
  obtain ⟨w2, h2, c2, e2, n2⟩ := read4bits_board
    ((pack 0 (readNibble mode st.world.ctrl) <<< 4) % 256) mode { st with world := w1 } hW
  simp only at h2 c2 n2 ⊢
  rw [h2]
  have hc1 : w1.ctrl = { st.world.ctrl with half := true } := by
    rw [c1, readCycle_first _ _ hS.dl8 hS.half]
  refine ⟨w1, w2, ?_, hc1, c2, e2, by rw [n2, n1]⟩
  congr 1
  have hlt : outByte mode st.world.ctrl / 16 % 16 < 16 := Nat.mod_lt _ (by decide)
  have hlt' : outByte mode st.world.ctrl % 16 < 16 := Nat.mod_lt _ (by decide)
  rw [hc1, readNibble_first _ _ hS.dl8 hS.half, readNibble_second _ _ hS.dl8,
    pack_zero _ hlt, pack_high _ hlt _ hlt']
  omega

/-- Between synced driver and controller `receive` in data mode reads the addressed
cell and steps the address counter. -/
theorem receive_synced (st : St Board) (hW : Wired st.obj) (hS : Synced st.world) :
    ∃ w, receive demoBoard _DDRAM_MODE st =
        (outByte 1 st.world.ctrl % 256, { st with world := w }) ∧
      w.ctrl = { st.world.ctrl with ac := stepAddr st.world.ctrl st.world.ctrl.incr } ∧
      w.level 11 = 0 ∧ w.rand = st.world.rand := by
  unfold receive
  have hrw : st.obj._rw_pin ≠ 255 := by rw [hW.rw]; decide
  have hfour : ¬ (st.obj._displayfunction &&& LCD_8BITMODE ≠ 0) := by rw [hW.four]; decide
  simp only [emit_board_delayMicroseconds, digitalWrite_obj, if_pos hrw, if_neg hfour]
  simp only [digitalWrite_board, hW, hW.rs, hW.rw]
  have hc0 : (drive 10 HIGH (drive 12 _DDRAM_MODE st.world)).ctrl = st.world.ctrl := by
    simp [drive, demoBoard, board]
  have hn0 : (drive 10 HIGH (drive 12 _DDRAM_MODE st.world)).rand = st.world.rand := by
    simp [drive, demoBoard, board]
  have hS0 : Synced (drive 10 HIGH (drive 12 _DDRAM_MODE st.world)) := by
    refine ⟨?_, ?_, ?_, ?_⟩
    · rw [hc0]; exact hS.dl8
    · rw [hc0]; exact hS.half
    · rw [hc0]; exact hS.hi
    · simp [drive, demoBoard, board, hS.en]
  obtain ⟨w1, w2, h, c1, c2, e2, n2⟩ := read_pair _DDRAM_MODE
    { st with world := drive 10 HIGH (drive 12 _DDRAM_MODE st.world) } hW hS0
  simp only at h c1 c2 n2
  rw [h]
  refine ⟨w2, ?_, ?_, e2, by rw [n2, hn0]⟩
  · rw [hc0]; rfl
  · rw [c2, c1, hc0]
    exact readCycle_second_data _ hS.dl8 hS.half

theorem forUpTo_id {σ : Type} (n : Nat) (body : Nat → σ → σ) (h : ∀ i st, body i st = st)
    (st : σ) : forUpTo n body st = st :=
  forUpTo_keeps (fun st => st) n body h st

theorem forUpTo_same {σ : Type} (n : Nat) (st : σ) : forUpTo n (fun _ st => st) st = st :=
  forUpTo_id n _ (fun _ _ => rfl) st

theorem Sees.synced {st : St Board} {o : LCD} {c : Ctrl} (h : Sees st o c) (hI : Idle c) :
    Synced st.world :=
  ⟨by rw [h.ctrl]; exact hI.dl8, by rw [h.ctrl]; exact hI.half, by rw [h.ctrl]; exact hI.hi, h.en⟩

theorem Sees.wired {st : St Board} {o : LCD} {c : Ctrl} (h : Sees st o c) (hW : Wired o) :
    Wired st.obj := by
  rw [h.obj]; exact hW

/-- An instruction byte between synced driver and controller. -/
theorem command_sees (v : Nat) (hv : v < 256) {st : St Board} {o : LCD} {c : Ctrl}
    (h : Sees st o c) (hW : Wired o) (hI : Idle c) :
    ∃ st', command demoBoard v st = .ok st' ∧ Sees st' o (exec (decode v) c) := by
  obtain ⟨w, hw, hc, he, _⟩ := busFrame_synced v LOW st (h.wired hW) (h.synced hI) hv
  refine ⟨_, command_eq demoBoard v st, ?_⟩
  rw [hw]
  exact ⟨h.obj, by rw [hc, h.ctrl]; rfl, he⟩

/-- A data byte between synced driver and controller. -/
theorem send_sees (v : Nat) (hv : v < 256) {st : St Board} {o : LCD} {c : Ctrl}
    (h : Sees st o c) (hW : Wired o) (hI : Idle c) (hidx : o._currentbufferindex < 80) :
    ∃ st', send demoBoard v _DDRAM_MODE st = .ok st' ∧
      Sees st' (shadowStore v o) (storeData v c) := by
  have hidx' : st.obj._currentbufferindex < _MAX_DDRAM_SIZE := by rw [h.obj]; exact hidx
  have hW' : Wired (assign (shadowStore v) st).obj := by
    rw [assign_obj, h.obj]
    exact ⟨hW.rs, hW.rw, hW.en, hW.data, hW.i2c, hW.spi, hW.four⟩
  obtain ⟨w, hw, hc, he, _⟩ := busFrame_synced v _DDRAM_MODE (assign (shadowStore v) st) hW'
    (h.synced hI) hv
  refine ⟨_, send_data demoBoard v st hidx', ?_⟩
  rw [hw]
  exact ⟨by rw [assign_obj, h.obj], by rw [hc]; show accept 1 v st.world.ctrl = _; rw [h.ctrl]; rfl,
    he⟩

/-- A busy poll between synced driver and controller: not busy, and the believed address
becomes the address counter. -/
theorem isBusy_sees {st : St Board} {o : LCD} {c : Ctrl}
    (h : Sees st o c) (hW : Wired o) (hI : Idle c) :
    ∃ st', isBusy demoBoard st = (false, st') ∧
      Sees st' { o with _currentcursorposition := c.ac % 128 } c := by
  unfold isBusy
  simp only [emit_board_pinMode, emit_board_delayMicroseconds, forUpTo_same]
  obtain ⟨w1, w2, hr, c1, c2, e2, _⟩ := read_pair _INSTR_MODE st (h.wired hW) (h.synced hI)
  simp only [hr]
  have hlt : c.ac % 128 < 128 := Nat.mod_lt _ (by decide)
  have hout : outByte _INSTR_MODE st.world.ctrl % 256 = c.ac % 128 := by
    rw [h.ctrl]; simp only [outByte, _INSTR_MODE, if_true]; omega
  obtain ⟨hb1, hb2⟩ := busy_bit_clear _ hlt
  rw [hout, hb1, hb2]
  refine ⟨_, rfl, ?_, ?_, e2⟩
  · rw [assign_obj, h.obj]
  · show w2.ctrl = c
    rw [c2, c1, h.ctrl]
    exact readCycle_second_instr c hI.dl8 hI.half

/-- A busy wait between synced driver and controller ends at the first poll. -/
theorem wait_sees (us fuel : Nat) {st : St Board} {o : LCD} {c : Ctrl}
    (h : Sees st o c) (hW : Wired o) (hI : Idle c) :
    ∃ st', waitWhileBusy demoBoard us (fuel + 1) st = .ok st' ∧
      Sees st' { o with _currentcursorposition := c.ac % 128 } c := by
  obtain ⟨st', hb, hs⟩ := isBusy_sees h hW hI
  refine ⟨st', ?_, hs⟩
  unfold waitWhileBusy
  simp only [hb]
  rfl

/-- A data read between synced driver and controller. -/
theorem receive_sees {st : St Board} {o : LCD} {c : Ctrl}
    (h : Sees st o c) (hW : Wired o) (hI : Idle c) :
    ∃ st', receive demoBoard _DDRAM_MODE st = (outByte 1 c % 256, st') ∧
      Sees st' o { c with ac := stepAddr c c.incr } := by
  obtain ⟨w, hw, hc, he, _⟩ := receive_synced st (h.wired hW) (h.synced hI)
  rw [h.ctrl] at hw hc
  exact ⟨_, hw, h.obj, hc, he⟩

theorem beginPins_board (st : St Board) (hW : Wired st.obj) : beginPins demoBoard st = st := by
  unfold beginPins
  have hrw : st.obj._rw_pin ≠ 255 := by rw [hW.rw]; decide
  rw [if_neg (by rw [hW.i2c]; decide), if_neg (by rw [hW.spi]; decide)]
  simp only [emit_board_pinMode, if_pos hrw]

theorem beginLinesLow_sees {st : St Board} {o : LCD} {c : Ctrl} (h : Sees st o c) (hW : Wired o) :
    Sees (beginLinesLow demoBoard st) o c ∧
      (beginLinesLow demoBoard st).world.level 10 = 0 ∧
      (beginLinesLow demoBoard st).world.level 12 = 0 := by
  unfold beginLinesLow
  have hW' := h.wired hW
  have hrw : st.obj._rw_pin ≠ 255 := by rw [hW'.rw]; decide
  simp only [digitalWrite_obj, if_pos hrw]
  simp only [digitalWrite_board, hW', hW'.rs, hW'.rw, hW'.en]
  refine ⟨⟨h.obj, ?_, ?_⟩, ?_, ?_⟩
  · simp [drive, demoBoard, board, LOW, h.en, h.ctrl]
  · simp [drive, demoBoard, board, LOW]
  · simp [drive, demoBoard, board, LOW]
  · simp [drive, demoBoard, board, LOW]

theorem decode_handshake :
    decode 51 = .functionSet true false false ∧ decode 63 = .functionSet true true true ∧
      decode 47 = .functionSet false true true := by
  decide

theorem handshake_ctrl (c : Ctrl) (hI : Idle c) :
    writeCycle 0 (0x02 % 16) (writeCycle 0 (0x03 % 16) (writeCycle 0 (0x03 % 16)
      (writeCycle 0 (0x03 % 16) c))) =
      { c with dl8 := false, twoLine := true, font := true, half := false } := by
  obtain ⟨h1, h2, h3⟩ := hI
  cases c
  simp only at h1 h2 h3
  subst h1 h2 h3
  obtain ⟨d1, d2, d3⟩ := decode_handshake
  simp [writeCycle, accept, exec, d1, d2, d3]

/-- The 4-bit handshake of `begin` from an idle 4-bit controller. -/
theorem beginBusWidth_sees {st : St Board} {o : LCD} {c : Ctrl} (h : Sees st o c) (hW : Wired o)
    (hI : Idle c) (hrw : st.world.level 10 = 0) (hrs : st.world.level 12 = 0) :
    ∃ st', beginBusWidth demoBoard st = .ok st' ∧
      Sees st' o { c with dl8 := false, twoLine := true, font := true, half := false } := by
  unfold beginBusWidth
  have hW' := h.wired hW
  have hfour : ¬ (st.obj._displayfunction &&& LCD_8BITMODE ≠ 0) := by rw [hW'.four]; decide
  rw [if_pos hfour]
  simp only [emit_board_delayMicroseconds]
  obtain ⟨w1, h1, c1, e1, r1, s1, _⟩ := write4bits_board 0x03 st hW' h.en hrw
  rw [h1]
  obtain ⟨w2, h2, c2, e2, r2, s2, _⟩ := write4bits_board 0x03 { st with world := w1 } hW' e1 r1
  rw [h2]
  obtain ⟨w3, h3, c3, e3, r3, s3, _⟩ := write4bits_board 0x03 { st with world := w2 } hW' e2 r2
  rw [h3]
  obtain ⟨w4, h4, c4, e4, r4, s4, _⟩ := write4bits_board 0x02 { st with world := w3 } hW' e3 r3
  rw [h4]
  refine ⟨_, rfl, h.obj, ?_, e4⟩
  show w4.ctrl = _
  simp only at c2 c3 c4 s1 s2 s3
  rw [c4, c3, c2, c1, s3, s2, s1, hrs, h.ctrl]
  exact handshake_ctrl c hI

theorem decode_functionSet : ∀ df, df < 16 →
    LCD_FUNCTIONSET ||| (df ||| LCD_2LINE) < 256 ∧
    (df ||| LCD_2LINE) &&& LCD_8BITMODE = 0 ∧
    decode (LCD_FUNCTIONSET ||| (df ||| LCD_2LINE)) =
      .functionSet false true (decide (df &&& 4 ≠ 0)) := by
  decide

theorem decode_fixed :
    decode (LCD_DISPLAYCONTROL ||| (LCD_DISPLAYON ||| LCD_CURSOROFF ||| LCD_BLINKOFF ||| LCD_DISPLAYON))
        = .displayControl true false false ∧
      decode (LCD_SETDDRAMADDR ||| (0 + 0) % 256) = .setDDRAM 0 ∧
      decode LCD_CLEARDISPLAY = .clearDisplay ∧
      decode (LCD_ENTRYMODESET ||| (LCD_ENTRYLEFT ||| LCD_ENTRYSHIFTDECREMENT))
        = .entryMode true false ∧
      decode (LCD_SETDDRAMADDR ||| 80) = .setDDRAM 0x50 := by
  decide

theorem beginGeometry_recovery (o : LCD) :
    beginGeometry 4 LCD_5x8DOTS o =
      { o with
        _displayfunction := o._displayfunction ||| LCD_2LINE, _numlines := 4, _currline := 0 } := by
  simp [beginGeometry, LCD_5x8DOTS]

theorem Sees.assign {st : St Board} {o : LCD} {c : Ctrl} (h : Sees st o c) (f : LCD → LCD) :
    Sees (assign f st) (f o) c :=
  ⟨by rw [assign_obj, h.obj], h.ctrl, h.en⟩

/-- Function `setCursor(0,0)` between synced driver and controller. -/
theorem setCursor_origin_sees {st : St Board} {o : LCD} {c : Ctrl} (h : Sees st o c)
    (hW : Wired o) (hI : Idle c) :
    ∃ st', setCursor demoBoard 0 0 st = .ok st' ∧
      Sees st' { o with _currentbufferindex := 0, _currentcursorposition := 0 }
        { c with ac := 0, cg := false } := by
  obtain ⟨_, hd2, _⟩ := decode_fixed
  have heq := setCursor_eq demoBoard 0 0 st (by decide) (by simp)
  rw [← command_eq] at heq
  have hW' : Wired { o with _currentbufferindex := 0, _currentcursorposition := 0 } :=
    ⟨hW.rs, hW.rw, hW.en, hW.data, hW.i2c, hW.spi, hW.four⟩
  obtain ⟨s, e, hs⟩ := command_sees (LCD_SETDDRAMADDR ||| (0 + row_offsets.getD 0 0) % 256)
    (by decide) (h.assign (fun o => { o with
      _currentbufferindex := (index_offsets.getD 0 0 + 0) % 256
      _currentcursorposition := (0 + row_offsets.getD 0 0) % 256 })) hW' hI
  rw [e] at heq
  refine ⟨s, heq, ?_⟩
  have hd2' : decode (LCD_SETDDRAMADDR ||| (0 + row_offsets.getD 0 0) % 256) = .setDDRAM 0 := hd2
  rw [hd2'] at hs
  exact hs

/-- Function `clear` with the reentrancy guard set, between synced driver and controller. -/
theorem clear_sees {st : St Board} {o : LCD} {c : Ctrl} (h : Sees st o c)
    (hW : Wired o) (hI : Idle c) (hres : o._isResetting = true) :
    ∃ st', clear demoBoard st = .ok st' ∧
      Sees st' { o with _currentbufferindex := 0, _currentcursorposition := 0 }
        { c with ddram := fun _ => 0x20, ac := 0, cg := false, incr := true } := by
  obtain ⟨_, _, hd3, _⟩ := decode_fixed
  unfold clear
  have hr : ¬ st.obj._isResetting = false := by rw [h.obj, hres]; decide
  simp only [if_neg hr, emit_board_delayMicroseconds]
  obtain ⟨s1, e1, h1⟩ := setCursor_origin_sees h hW hI
  rw [e1, bind_ok]
  have hW' : Wired { o with _currentbufferindex := 0, _currentcursorposition := 0 } :=
    ⟨hW.rs, hW.rw, hW.en, hW.data, hW.i2c, hW.spi, hW.four⟩
  obtain ⟨s2, e2, h2⟩ := command_sees LCD_CLEARDISPLAY (by decide) h1 hW' ⟨hI.dl8, hI.half, hI.hi⟩
  rw [e2, bind_ok]
  rw [hd3] at h2
  exact ⟨s2, rfl, h2⟩

/-- Function `begin(20,4)` run during a recovery, between a driver and a controller that
agree on the 4-bit interface: the object ends as `beginObj` says, the controller
re-initialised. -/
theorem begin_sees {st : St Board} {o : LCD} {c : Ctrl} (h : Sees st o c) (hW : Wired o)
    (hsmall : o._displayfunction < 16) (hI : Idle c) (hres : o._isResetting = true) :
    ∃ st' F, begin demoBoard 20 4 LCD_5x8DOTS st = .ok st' ∧
      Sees st' (beginObj 4 LCD_5x8DOTS o) (reinit F c) := by
  obtain ⟨hf1, hf2, hf3⟩ := decode_functionSet _ hsmall
  obtain ⟨hd1, _, _, hd4, _⟩ := decode_fixed
  unfold begin
  simp only [emit_board_delayMicroseconds]
  rw [beginPins_board st (h.wired hW)]
  -- geometry, lines low, bus width
  have hWg : Wired (beginGeometry 4 LCD_5x8DOTS o) := by
    rw [beginGeometry_recovery]
    exact ⟨hW.rs, hW.rw, hW.en, hW.data, hW.i2c, hW.spi, hf2⟩
  obtain ⟨h3, l10, l12⟩ := beginLinesLow_sees (h.assign (beginGeometry 4 LCD_5x8DOTS)) hWg
  obtain ⟨s4, e4, h4⟩ := beginBusWidth_sees h3 hWg hI l10 l12
  rw [e4, bind_ok]
  -- function set
  have hdf : s4.obj._displayfunction = o._displayfunction ||| LCD_2LINE := by
    rw [h4.obj, beginGeometry_recovery]
  obtain ⟨s5, e5, h5⟩ := command_sees (LCD_FUNCTIONSET ||| s4.obj._displayfunction)
    (by rw [hdf]; exact hf1) h4 hWg ⟨rfl, rfl, hI.hi⟩
  rw [e5, bind_ok]
  rw [hdf, hf3] at h5
  -- display on
  have h6 := (h5.assign (fun o => { o with
    _displaycontrol := LCD_DISPLAYON ||| LCD_CURSOROFF ||| LCD_BLINKOFF })).assign
    (fun o => { o with _displaycontrol := o._displaycontrol ||| LCD_DISPLAYON })
  obtain ⟨s7, e7, h7⟩ := command_sees
    (LCD_DISPLAYCONTROL ||| (LCD_DISPLAYON ||| LCD_CURSOROFF ||| LCD_BLINKOFF ||| LCD_DISPLAYON))
    (by decide) h6 ⟨hWg.rs, hWg.rw, hWg.en, hWg.data, hWg.i2c, hWg.spi, hWg.four⟩
    ⟨rfl, rfl, hI.hi⟩
  rw [hd1] at h7
  have e7' : display demoBoard (assign (fun o => { o with
      _displaycontrol := LCD_DISPLAYON ||| LCD_CURSOROFF ||| LCD_BLINKOFF }) s5) = .ok s7 := e7
  rw [e7', bind_ok]
  -- clear
  have hr7 : ({ beginGeometry 4 LCD_5x8DOTS o with
      _displaycontrol := LCD_DISPLAYON ||| LCD_CURSOROFF ||| LCD_BLINKOFF ||| LCD_DISPLAYON }
      : LCD)._isResetting = true := (beginGeometry_resetting _ _ _).trans hres
  obtain ⟨s8, e8, h8⟩ := clear_sees h7
    ⟨hWg.rs, hWg.rw, hWg.en, hWg.data, hWg.i2c, hWg.spi, hWg.four⟩ ⟨rfl, rfl, hI.hi⟩ hr7
  rw [e8, bind_ok]
  -- entry mode
  obtain ⟨s9, e9, h9⟩ := command_sees
    (LCD_ENTRYMODESET ||| (LCD_ENTRYLEFT ||| LCD_ENTRYSHIFTDECREMENT)) (by decide)
    (h8.assign (fun o => { o with _displaymode := LCD_ENTRYLEFT ||| LCD_ENTRYSHIFTDECREMENT }))
    ⟨hWg.rs, hWg.rw, hWg.en, hWg.data, hWg.i2c, hWg.spi, hWg.four⟩ ⟨rfl, rfl, hI.hi⟩
  rw [hd4] at h9
  refine ⟨s9, decide (o._displayfunction &&& 4 ≠ 0), e9, ?_⟩
  rw [beginObj_resetting _ _ _ hres]
  exact h9

theorem seqAddr_step : ∀ i, i < 80 →
    (if seqAddr i = 0x27 then 0x40 else if seqAddr i = 0x67 then 0x00
      else (seqAddr i + 1) % 128) = seqAddr (i + 1) := by
  decide

theorem seqAddr_inj (i j : Nat) (hi : i < 80) (hj : j < 80) (h : seqAddr i = seqAddr j) :
    i = j := by
  unfold seqAddr at h
  rw [Nat.mod_eq_of_lt hi, Nat.mod_eq_of_lt hj] at h
  split_ifs at h <;> omega

theorem getD_lt_256 (B : List Nat) (hB : ∀ b ∈ B, b < 256) (i : Nat) : B.getD i 0 < 256 := by
  rw [List.getD_eq_getElem?_getD]
  cases h : B[i]? with
  | none => decide
  | some b => exact hB b (List.getElem?_mem h)

/-- Storing cell `i` of `B` on a display that holds the cells before it. -/
theorem storeData_laid (F : Bool) (c : Ctrl) (B : List Nat) (i : Nat) (hg : c.glitch = 0)
    (hi : i < 80) :
    storeData (B.getD i 0) { reinit F c with ddram := laid B i, ac := seqAddr i } =
      { reinit F c with ddram := laid B (i + 1), ac := seqAddr (i + 1) } := by
  have hs := seqAddr_step i hi
  cases c
  simp only at hg
  subst hg
  simp only [storeData, reinit, stepAddr, Nat.xor_zero, Bool.false_eq_true, if_false, if_true, hs,
    laid]

/-- The replay loop of `rewriteAll` on the simulated transport: after `n` cells the
display holds them and the address counter stands at the next one. -/
theorem replay_sees (F : Bool) (c : Ctrl) (O : LCD) (hW : Wired O) (hI : Idle c)
    (hg : c.glitch = 0) (hO : O._currentbufferindex = 0)
    (hB : ∀ b ∈ O._expecteddramcontents, b < 256)
    (n : Nat) (hn : n ≤ 80) (y : St Board) (hy : Sees y O (reinit F c)) :
    ∃ z, forUpToM n
        (fun i st => send demoBoard (st.obj._expecteddramcontents.getD i 0) _DDRAM_MODE st) y
          = .ok z ∧
      Sees z { O with _currentbufferindex := n }
        { reinit F c with ddram := laid O._expecteddramcontents n, ac := seqAddr n } := by
  refine forUpToM_inv (fun i (x : St Board) => Sees x { O with _currentbufferindex := i }
    { reinit F c with ddram := laid O._expecteddramcontents i, ac := seqAddr i }) n _ y ?_ ?_
  · show Sees y _ _
    have h1 : ({ O with _currentbufferindex := 0 } : LCD) = O := by rw [← hO]
    rw [h1]
    exact hy
  · intro i hi x hx
    have hi80 : i < 80 := Nat.lt_of_lt_of_le hi hn
    have hv : x.obj._expecteddramcontents.getD i 0 = O._expecteddramcontents.getD i 0 := by
      rw [hx.obj]
    obtain ⟨st', e, hs⟩ := send_sees (O._expecteddramcontents.getD i 0)
      (getD_lt_256 _ hB i) hx ⟨hW.rs, hW.rw, hW.en, hW.data, hW.i2c, hW.spi, hW.four⟩
      ⟨rfl, rfl, hI.hi⟩ hi80
    refine ⟨st', by simp only [hv]; exact e, ?_⟩
    rw [storeData_laid F c _ i hg hi80] at hs
    have ho : shadowStore (O._expecteddramcontents.getD i 0) { O with _currentbufferindex := i } =
        { O with _currentbufferindex := i + 1 } := by
      simp only [shadowStore, set_getD_self]
      rw [Nat.mod_eq_of_lt (by omega)]
    rw [ho] at hs
    exact hs

theorem forUpTo_inv {σ : Type} (P : Nat → σ → Prop) (n : Nat) (body : Nat → σ → σ) (st : σ)
    (h0 : P 0 st) (hstep : ∀ i, i < n → ∀ x, P i x → P (i + 1) (body i x)) :
    P n (forUpTo n body st) := by
  induction n with
  | zero => exact h0
  | succ n ih =>
    rw [forUpTo_succ]
    exact hstep n (Nat.lt_succ_self n) _ (ih (fun i hi x hx => hstep i (Nat.lt_succ_of_lt hi) x hx))

theorem laid_at (B : List Nat) (n : Nat) (hn : n ≤ 80) (i : Nat) (hi : i < n) :
    laid B n (seqAddr i) = B.getD i 0 := by
  induction n with
  | zero => exact absurd hi (Nat.not_lt_zero i)
  | succ n ih =>
    show (if seqAddr i = seqAddr n then B.getD n 0 else laid B n (seqAddr i)) = _
    by_cases h : i = n
    · rw [h, if_pos rfl]
    · have hne : seqAddr i ≠ seqAddr n := fun he =>
        h (seqAddr_inj i n (by omega) (by omega) he)
      rw [if_neg hne]
      exact ih (by omega) (by omega)

/-- The recovery of `write` on the simulated transport, from a driver and a controller
that agree on the 4-bit interface: the display ends holding the shadow buffer. -/
theorem recover_sees {st : St Board} {o : LCD} {c : Ctrl} (h : Sees st o c) (hW : Wired o)
    (hsmall : o._displayfunction < 16) (hI : Idle c) (hg : c.glitch = 0)
    (hB : ∀ b ∈ o._expecteddramcontents, b < 256) :
    ∃ z F, recover demoBoard st = .ok z ∧
      Sees z
        { beginObj 4 LCD_5x8DOTS { o with _isResetting := true } with
          _currentbufferindex := 80
          _isResetting := false }
        { reinit F c with ddram := laid o._expecteddramcontents 80, ac := 0x50 } := by
  obtain ⟨_, _, _, _, hd5⟩ := decode_fixed
  unfold recover rewriteAll resync4BitMode
  simp only [emit_board_delay]
  obtain ⟨s1, F, e1, h1⟩ := begin_sees (h.assign (fun o => { o with _isResetting := true }))
    ⟨hW.rs, hW.rw, hW.en, hW.data, hW.i2c, hW.spi, hW.four⟩ hsmall hI rfl
  rw [e1, bind_ok]
  have hOb : (beginObj 4 LCD_5x8DOTS { o with _isResetting := true })._expecteddramcontents =
      o._expecteddramcontents := by
    rw [beginObj_resetting _ _ _ rfl]; exact beginGeometry_buffer _ _ _
  have hOi : (beginObj 4 LCD_5x8DOTS { o with _isResetting := true })._currentbufferindex = 0 := by
    rw [beginObj_resetting _ _ _ rfl]
  have hOW : Wired (beginObj 4 LCD_5x8DOTS { o with _isResetting := true }) := by
    rw [beginObj_resetting _ _ _ rfl, beginGeometry_recovery]
    exact ⟨hW.rs, hW.rw, hW.en, hW.data, hW.i2c, hW.spi, (decode_functionSet _ hsmall).2.1⟩
  obtain ⟨s2, e2, h2⟩ := replay_sees F c _ hOW hI hg hOi (by rw [hOb]; exact hB) 80
    (Nat.le_refl 80) s1 h1
  have e2' : forUpToM _MAX_DDRAM_SIZE
      (fun i st => send demoBoard (st.obj._expecteddramcontents.getD i 0) _DDRAM_MODE st) s1
        = .ok s2 := e2
  rw [e2', bind_ok]
  rw [hOb] at h2
  have h3 := h2.assign (fun o => { o with _isResetting := false })
  obtain ⟨s4, e4, h4⟩ := command_sees (LCD_SETDDRAMADDR ||| 80) (by decide) h3
    ⟨hOW.rs, hOW.rw, hOW.en, hOW.data, hOW.i2c, hOW.spi, hOW.four⟩ ⟨rfl, rfl, hI.hi⟩
  rw [hd5] at h4
  have hidx : (assign (fun o => { o with _isResetting := false }) s2).obj._currentbufferindex
      = 80 := by
    rw [h3.obj]
  rw [hidx, e4]
  exact ⟨s4, F, rfl, h4⟩

theorem step_seq (C : Ctrl) (h2 : C.twoLine = true) (hinc : C.incr = true) (i : Nat)
    (hi : i < 80) :
    ({ ({ C with ac := seqAddr i, cg := false } : Ctrl) with
        ac := stepAddr { C with ac := seqAddr i, cg := false }
          ({ C with ac := seqAddr i, cg := false } : Ctrl).incr } : Ctrl) =
      { C with ac := seqAddr (i + 1), cg := false } := by
  have hs := seqAddr_step i hi
  cases C
  simp only at h2 hinc
  subst h2 hinc
  simp only [stepAddr, Bool.false_eq_true, if_false, if_true, hs]

/-- Function `checkDisplay` on the simulated transport, when the display holds the
shadow buffer: it reads the 80 cells of the shadow buffer and `match` stays true. -/
theorem checkDisplay_sees (fuel : Nat) {x : St Board} {O : LCD} {C : Ctrl} (h : Sees x O C)
    (hW : Wired O) (hI : Idle C) (h2 : C.twoLine = true) (hinc : C.incr = true)
    (hd : ∀ i, i < 80 → C.ddram (seqAddr i) = O._expecteddramcontents.getD i 0)
    (hlen : O._expecteddramcontents.length = 80)
    (hB : ∀ b ∈ O._expecteddramcontents, b < 256) :
    ∃ y, checkDisplay demoBoard (fuel + 1) 0 x = .ok ((O._expecteddramcontents, true), y) := by
  unfold checkDisplay
  simp only [emit_board_delayMicroseconds]
  obtain ⟨s1, e1, h1⟩ := setCursor_origin_sees h hW hI
  rw [e1, bind_ok]
  obtain ⟨s2, e2, h2'⟩ := wait_sees _read_delay_time fuel h1
    ⟨hW.rs, hW.rw, hW.en, hW.data, hW.i2c, hW.spi, hW.four⟩ ⟨hI.dl8, hI.half, hI.hi⟩
  rw [e2, bind_ok]
  have hO2 : ∃ O2 : LCD, Sees s2 O2 { C with ac := seqAddr 0, cg := false } ∧ Wired O2 ∧
      O2._expecteddramcontents = O._expecteddramcontents :=
    ⟨_, h2', ⟨hW.rs, hW.rw, hW.en, hW.data, hW.i2c, hW.spi, hW.four⟩, rfl⟩
  obtain ⟨O2, h2', hW2, hbuf⟩ := hO2
  have key := forUpTo_inv
    (fun i (r : (List Nat × Bool) × St Board) =>
      r.1.1 = O._expecteddramcontents.take i ∧ r.1.2 = true ∧
        Sees r.2 O2 { C with ac := seqAddr i, cg := false })
    _MAX_DDRAM_SIZE
    (fun i (r : (List Nat × Bool) × St Board) =>
      let v := receive demoBoard _DDRAM_MODE r.2
      let displaydram := r.1.1 ++ [v.1]
      let matched := if v.1 ≠ v.2.obj._expecteddramcontents.getD i 0 then false else r.1.2
      ((displaydram, matched), v.2))
    ((([] : List Nat), true), s2) ⟨rfl, rfl, h2'⟩
    (by
      intro i hi r ⟨r1, r2, r3⟩
      obtain ⟨st', e, hs⟩ := receive_sees r3 hW2 ⟨hI.dl8, hI.half, hI.hi⟩
      have hval : outByte 1 ({ C with ac := seqAddr i, cg := false } : Ctrl) % 256 =
          O._expecteddramcontents.getD i 0 := by
        show C.ddram (seqAddr i) % 256 = _
        rw [hd i hi]
        exact Nat.mod_eq_of_lt (getD_lt_256 _ hB i)
      rw [hval] at e
      rw [step_seq C h2 hinc i hi] at hs
      simp only [e]
      refine ⟨?_, ?_, hs⟩
      · rw [r1, take_succ_getD _ _ (by rw [hlen]; exact hi)]
      · rw [hs.obj, hbuf]
        simp only [ne_eq, not_true_eq_false, if_false, r2])
  revert key
  generalize forUpTo _MAX_DDRAM_SIZE _ _ = R
  intro key
  obtain ⟨k1, k2, _⟩ := key
  have k1' : R.1.1 = O._expecteddramcontents.take 80 := k1
  rw [List.take_of_length_le (Nat.le_of_eq hlen)] at k1'
  exact ⟨R.2, congrArg Except.ok (Prod.ext (Prod.ext k1' k2) rfl)⟩

theorem decode_setDDRAM : ∀ a, a < 128 →
    LCD_SETDDRAMADDR ||| a < 256 ∧ decode (LCD_SETDDRAMADDR ||| a) = .setDDRAM a := by
  decide

theorem storeData_idle (v : Nat) (c : Ctrl) (hI : Idle c) :
    Idle (storeData v c) ∧ (storeData v c).glitch = 0 := by
  unfold storeData
  simp only
  split_ifs <;> exact ⟨⟨hI.dl8, hI.half, hI.hi⟩, rfl⟩

theorem storeData_cell (v : Nat) (c : Ctrl) (hcg : c.cg = false) :
    (storeData v c).ddram c.ac = v ^^^ c.glitch := by
  unfold storeData
  simp [hcg]

theorem injectPulse_sees {st : St Board} {o : LCD} {c : Ctrl} (h : Sees st o c)
    (hres : o._isResetting = false) (hrand : st.world.rand.headD 1 % 100 ≠ 0) :
    Sees (injectPulse demoBoard st) o c := by
  unfold injectPulse
  have hr : st.obj._isResetting = false := by rw [h.obj]; exact hres
  have hlt : ¬ (demoBoard.ask Ask.rand st.world).1 % 100 < 1 := by
    show ¬ st.world.rand.headD 1 % 100 < 1
    omega
  simp only [if_pos hr, if_neg hlt]
  exact ⟨h.obj, h.ctrl, h.en⟩

/-- The first part of `write` on the simulated transport, when the transport corrupts
the data byte with the pending `glitch`: the byte read back is the corrupted one. -/
theorem writeReadBack_sees (fuel v : Nat) {st : St Board} {o : LCD} {c : Ctrl}
    (h : Sees st o c) (hW : Wired o) (hI : Idle c)
    (hres : o._isResetting = false) (hidx : o._currentbufferindex < 80) (hv : v < 256)
    (hcg : c.cg = false) (hac : c.ac < 128) (hm : c.glitch < 256)
    (hrand : st.world.rand.headD 1 % 100 ≠ 0) :
    ∃ r o' c', writeReadBack demoBoard (fuel + 1) v st = .ok r ∧ r.1 = v ^^^ c.glitch ∧
      Sees r.2 o' c' ∧ Idle c' ∧ c'.glitch = 0 ∧
      o' = { shadowStore v o with _currentcursorposition := o'._currentcursorposition } := by
  unfold writeReadBack
  simp only
  have h0 := injectPulse_sees h hres hrand
  generalize injectPulse demoBoard st = s0 at h0 ⊢
  obtain ⟨s1, e1, h1⟩ := wait_sees 100 fuel h0 hW hI
  rw [e1, bind_ok]
  have hmode : HIGH = _DDRAM_MODE := rfl
  have hW1 : Wired { o with _currentcursorposition := c.ac % 128 } :=
    ⟨hW.rs, hW.rw, hW.en, hW.data, hW.i2c, hW.spi, hW.four⟩
  obtain ⟨s2, e2, h2⟩ := send_sees v hv h1 hW1 hI hidx
  rw [hmode, e2, bind_ok]
  obtain ⟨hI2, hg2⟩ := storeData_idle v c hI
  have hW2 : Wired (shadowStore v { o with _currentcursorposition := c.ac % 128 }) :=
    ⟨hW.rs, hW.rw, hW.en, hW.data, hW.i2c, hW.spi, hW.four⟩
  obtain ⟨s3, e3, h3⟩ := wait_sees 100 fuel h2 hW2 hI2
  rw [e3, bind_ok]
  have hcur : s2.obj._currentcursorposition = c.ac := by
    rw [h2.obj]; exact Nat.mod_eq_of_lt hac
  have hnew : s3.obj._currentcursorposition = (storeData v c).ac % 128 := by
    rw [h3.obj]
  have hW3 : Wired { shadowStore v { o with _currentcursorposition := c.ac % 128 } with
      _currentcursorposition := (storeData v c).ac % 128 } :=
    ⟨hW.rs, hW.rw, hW.en, hW.data, hW.i2c, hW.spi, hW.four⟩
  obtain ⟨b4, d4⟩ := decode_setDDRAM c.ac hac
  obtain ⟨s4, e4, h4⟩ := command_sees (LCD_SETDDRAMADDR ||| c.ac) b4 h3 hW3 hI2
  rw [hcur, e4, bind_ok]
  rw [d4] at h4
  obtain ⟨s5, e5, h5⟩ := receive_sees h4 hW3 ⟨hI2.dl8, hI2.half, hI2.hi⟩
  have hval : outByte 1 ({ storeData v c with ac := c.ac, cg := false } : Ctrl) % 256 =
      v ^^^ c.glitch := by
    show (storeData v c).ddram c.ac % 256 = _
    rw [storeData_cell v c hcg]
    exact Nat.mod_eq_of_lt (Nat.xor_lt_two_pow (n := 8) hv hm)
  have hval' : outByte 1 (exec (.setDDRAM c.ac) (storeData v c)) % 256 = v ^^^ c.glitch := hval
  rw [hval'] at e5
  have hlt : (storeData v c).ac % 128 < 128 := Nat.mod_lt _ (by decide)
  obtain ⟨b6, d6⟩ := decode_setDDRAM _ hlt
  obtain ⟨s6, e6, h6⟩ := command_sees (LCD_SETDDRAMADDR ||| (storeData v c).ac % 128) b6 h5 hW3
    ⟨hI2.dl8, hI2.half, hI2.hi⟩
  rw [d6] at h6
  simp only [e5]
  rw [hnew, e6, bind_ok]
  exact ⟨_, _, _, rfl, rfl, h6, ⟨hI2.dl8, hI2.half, hI2.hi⟩, hg2, rfl⟩

/-- C5: on the simulated transport, between a driver and an ideal controller that agree
on the 4-bit interface, a `write(v)` whose data byte the transport corrupts reads back a
byte different from `v` and runs the recovery, and a `checkDisplay` right after reads 80
cells equal to the shadow buffer, with `match` still true. -/
theorem write_repairs_corrupted_byte (fuel v : Nat) (st : St Board)
    (hW : Wired st.obj) (hsmall : st.obj._displayfunction < 16) (hS : Synced st.world)
    (hres : st.obj._isResetting = false) (hidx : st.obj._currentbufferindex < 80)
    (hlen : st.obj._expecteddramcontents.length = 80)
    (hB : ∀ b ∈ st.obj._expecteddramcontents, b < 256) (hv : v < 256)
    (hcg : st.world.ctrl.cg = false) (hac : st.world.ctrl.ac < 128)
    (hm0 : st.world.ctrl.glitch ≠ 0) (hm : st.world.ctrl.glitch < 256)
    (hrand : st.world.rand.headD 1 % 100 ≠ 0) :
    ∃ r, writeReadBack demoBoard (fuel + 1) v st = .ok r ∧ r.1 ≠ v ∧
      ∃ z x, recover demoBoard r.2 = .ok z ∧
        write demoBoard (fuel + 1) v st = .ok x ∧
        x = assign (fun o => { o with _currentbufferindex := r.2.obj._currentbufferindex % 256 }) z ∧
        x.obj._expecteddramcontents =
          st.obj._expecteddramcontents.set st.obj._currentbufferindex v ∧
        ∃ y, checkDisplay demoBoard (fuel + 1) 0 x =
          .ok ((x.obj._expecteddramcontents, true), y) := by
  have h : Sees st st.obj st.world.ctrl := ⟨rfl, rfl, hS.en⟩
  have hI : Idle st.world.ctrl := ⟨hS.dl8, hS.half, hS.hi⟩
  obtain ⟨r, o', c', e, hr, hs, hI', hg', ho'⟩ :=
    writeReadBack_sees fuel v h hW hI hres hidx hv hcg hac hm hrand
  have hne : r.1 ≠ v := by
    rw [hr]
    intro heq
    have h0 : v ^^^ st.world.ctrl.glitch = v ^^^ 0 := by rw [heq, Nat.xor_zero]
    exact hm0 (Nat.xor_right_inj.mp h0)
  have hbuf : o'._expecteddramcontents =
      st.obj._expecteddramcontents.set st.obj._currentbufferindex v := by rw [ho']; rfl
  have hW' : Wired o' := by
    rw [ho']; exact ⟨hW.rs, hW.rw, hW.en, hW.data, hW.i2c, hW.spi, hW.four⟩
  have hsmall' : o'._displayfunction < 16 := by rw [ho']; exact hsmall
  have hB' : ∀ b ∈ o'._expecteddramcontents, b < 256 := by
    intro b hb
    rw [hbuf] at hb
    rcases List.mem_or_eq_of_mem_set hb with h1 | h1
    · exact hB b h1
    · rw [h1]; exact hv
  have hlen' : o'._expecteddramcontents.length = 80 := by
    rw [hbuf, List.length_set]; exact hlen
  obtain ⟨z, F, ez, hz⟩ := recover_sees hs hW' hsmall' hI' hg' hB'
  have hx := hz.assign
    (fun o => { o with _currentbufferindex := r.2.obj._currentbufferindex % 256 })
  have hOb : (beginObj 4 LCD_5x8DOTS { o' with _isResetting := true })._expecteddramcontents =
      o'._expecteddramcontents := by
    rw [beginObj_resetting _ _ _ rfl]; exact beginGeometry_buffer _ _ _
  have hOW : Wired (beginObj 4 LCD_5x8DOTS { o' with _isResetting := true }) := by
    rw [beginObj_resetting _ _ _ rfl, beginGeometry_recovery]
    exact ⟨hW'.rs, hW'.rw, hW'.en, hW'.data, hW'.i2c, hW'.spi,
      (decode_functionSet _ hsmall').2.1⟩
  refine ⟨r, e, hne, z, _, ez, ?_, rfl, ?_, ?_⟩
  · unfold write
    rw [e, bind_ok]
    simp only
    rw [if_pos hne, ez, bind_ok]
    rfl
  · rw [hx.obj]
    exact hOb.trans hbuf
  · have hxb : (assign (fun o => { o with
        _currentbufferindex := r.2.obj._currentbufferindex % 256 }) z).obj._expecteddramcontents
          = o'._expecteddramcontents := by
      rw [hx.obj]; exact hOb
    rw [hxb]
    have key := checkDisplay_sees fuel hx
      ⟨hOW.rs, hOW.rw, hOW.en, hOW.data, hOW.i2c, hOW.spi, hOW.four⟩
      ⟨rfl, rfl, hI'.hi⟩ rfl rfl
      (fun i hi => (laid_at o'._expecteddramcontents 80 (Nat.le_refl 80) i hi).trans
        (congrArg (fun l : List Nat => l.getD i 0) hOb).symm)
      (by show (beginObj 4 LCD_5x8DOTS { o' with _isResetting := true })._expecteddramcontents.length
            = 80
          rw [hOb]; exact hlen')
      (by show ∀ b ∈ (beginObj 4 LCD_5x8DOTS { o' with _isResetting := true })._expecteddramcontents,
            b < 256
          rw [hOb]; exact hB')
    obtain ⟨y, hy⟩ := key
    refine ⟨y, ?_⟩
    rw [hy]
    show Except.ok (((beginObj 4 LCD_5x8DOTS { o' with _isResetting := true })._expecteddramcontents,
      true), y) = _
    rw [hOb]

set_option maxRecDepth 100000 in
/-- C5, at a concrete input: after `begin(20,4,0)` on the simulated transport, `write(0x48)`
with bit 2 of the data byte flipped on the way. -/
theorem write_repairs_corrupted_byte_witness :
    ∃ r, writeReadBack demoBoard 1 0x48 (readyOnBoard 4) = .ok r ∧ r.1 ≠ 0x48 ∧
      ∃ z x, recover demoBoard r.2 = .ok z ∧
        write demoBoard 1 0x48 (readyOnBoard 4) = .ok x ∧
        x = assign (fun o => { o with _currentbufferindex := r.2.obj._currentbufferindex % 256 }) z ∧
        x.obj._expecteddramcontents =
          (readyOnBoard 4).obj._expecteddramcontents.set
            (readyOnBoard 4).obj._currentbufferindex 0x48 ∧
        ∃ y, checkDisplay demoBoard 1 0 x = .ok ((x.obj._expecteddramcontents, true), y) :=
  write_repairs_corrupted_byte 0 0x48 (readyOnBoard 4)
    ⟨by decide!, by decide!, by decide!, by decide!, by decide!, by decide!, by decide!⟩
    (by decide!) ⟨by decide!, by decide!, by decide!, by decide!⟩
    (by decide!) (by decide!) (by decide!) (by decide!) (by decide) (by decide!) (by decide!)
    (by decide!) (by decide!) (by decide!)

/-! ## The I2C transport -/

theorem read4bits_i2c {W : Type} (hw : Host W) (v m : Nat) (st : St W)
    (h : st.obj._i2cAddr ≠ 255) : read4bits hw v m st = (v, st) := by
  unfold read4bits
  rw [if_pos h]

theorem read8bits_i2c {W : Type} (hw : Host W) (v m : Nat) (st : St W)
    (h : st.obj._i2cAddr ≠ 255) : read8bits hw v m st = (v, st) := by
  unfold read8bits
  rw [if_pos h]

/-- On I2C the two nibble reads of a byte leave the 0 they start from. -/
theorem read_pair_i2c {W : Type} (hw : Host W) (m : Nat) (st : St W)
    (h : st.obj._i2cAddr ≠ 255) :
    read4bits hw (((read4bits hw 0 m st).1 <<< 4) % 256) m (read4bits hw 0 m st).2 = (0, st) := by
  rw [read4bits_i2c hw 0 m st h]
  exact read4bits_i2c hw _ m st h

/-- On I2C `receive` hands back 0. -/
theorem receive_i2c {W : Type} (hw : Host W) (m : Nat) (st : St W)
    (h : st.obj._i2cAddr ≠ 255) : (receive hw m st).1 = 0 := by
  unfold receive
  simp only
  split_ifs with h1 h2 h3
  · rw [read8bits_i2c _ _ _ _ (by simpa using h)]
  · rw [read_pair_i2c _ _ _ (by simpa using h)]
  · rw [read8bits_i2c _ _ _ _ (by simpa using h)]
  · rw [read_pair_i2c _ _ _ (by simpa using h)]

/-- On I2C `isBusy` returns false and leaves the object with cursor position 0. -/
theorem isBusy_i2c {W : Type} (hw : Host W) (st : St W) (h : st.obj._i2cAddr ≠ 255) :
    (isBusy hw st).1 = false ∧
      (isBusy hw st).2.obj = { st.obj with _currentcursorposition := 0 } := by
  have hk : ∀ s : St W,
      (forUpTo 8 (fun i st => emit hw (.pinMode (dataPin st.obj i) INPUT_PULLUP) st) s).obj
        = s.obj :=
    fun s => forUpTo_keeps (fun st : St W => st.obj) 8 _ (fun i st => by simp) s
  have hk2 : ∀ s : St W,
      (forUpTo 8 (fun i st => emit hw (.pinMode (dataPin st.obj i) OUTPUT) st) s).obj
        = s.obj :=
    fun s => forUpTo_keeps (fun st : St W => st.obj) 8 _ (fun i st => by simp) s
  unfold isBusy
  simp only
  rw [read_pair_i2c _ _ _ (by rw [hk]; exact h)]
  simp only
  constructor
  · simp
  · rw [hk2, emit_obj, assign_obj, hk]
    rfl

/-- On I2C a busy wait that may poll at least once ends after its first poll. -/
theorem waitWhileBusy_i2c {W : Type} (hw : Host W) (us fuel : Nat) (st : St W)
    (h : st.obj._i2cAddr ≠ 255) :
    waitWhileBusy hw us (fuel + 1) st = .ok (isBusy hw st).2 := by
  unfold waitWhileBusy
  simp only
  rw [(isBusy_i2c hw st h).1]
  rfl


/-- On I2C the first part of a `write` that starts inside the buffer reads back 0,
whatever was written. -/
theorem writeReadBack_i2c {W : Type} (hw : Host W) (fuel v : Nat) (st : St W)
    (h : st.obj._i2cAddr ≠ 255) (hidx : st.obj._currentbufferindex < 80) :
    ∃ s, writeReadBack hw (fuel + 1) v st = .ok (0, s) := by
  unfold writeReadBack
  simp only
  have h0 := injectPulse_obj hw st
  generalize injectPulse hw st = s0 at h0 ⊢
  rw [waitWhileBusy_i2c hw 100 fuel s0 (by rw [h0]; exact h), bind_ok]
  have o1 := (isBusy_i2c hw s0 (by rw [h0]; exact h)).2
  generalize (isBusy hw s0).2 = s1 at o1 ⊢
  have hi1 : s1.obj._currentbufferindex < _MAX_DDRAM_SIZE := by
    rw [o1, h0]; exact hidx
  have hmode : HIGH = _DDRAM_MODE := rfl
  rw [hmode, send_data hw v s1 hi1, bind_ok]
  have o2 : (busFrame hw v _DDRAM_MODE (assign (shadowStore v) s1)).obj._i2cAddr ≠ 255 := by
    rw [busFrame_obj, assign_obj, shadowStore, o1, h0]; exact h
  generalize busFrame hw v _DDRAM_MODE (assign (shadowStore v) s1) = s2 at o2 ⊢
  rw [waitWhileBusy_i2c hw 100 fuel s2 o2, bind_ok]
  have o3 : (isBusy hw s2).2.obj._i2cAddr ≠ 255 := by
    rw [(isBusy_i2c hw s2 o2).2]; exact o2
  generalize (isBusy hw s2).2 = s3 at o3 ⊢
  rw [command_eq, bind_ok, command_eq, bind_ok]
  rw [receive_i2c hw _DDRAM_MODE _ (by rw [busFrame_obj]; exact o3)]
  exact ⟨_, rfl⟩

/-- C11: on the I2C transport (`_i2cAddr ≠ 255`), whatever the host answers, `receive`
hands back 0 and `isBusy` returns false and sets `_currentcursorposition` to 0; so a
`write(v)` that starts inside the buffer reads back 0 and returns, without recovery when
`v = 0` and through `rewriteAll` and the rest of the recovery when `v ≠ 0`. -/
theorem write_on_i2c_recovers_iff_nonzero {W : Type} (hw : Host W) (fuel v : Nat) (st : St W)
    (hi2c : st.obj._i2cAddr ≠ 255) (hidx : st.obj._currentbufferindex < 80) :
    (∀ mode, (receive hw mode st).1 = 0) ∧
    (isBusy hw st).1 = false ∧
    (isBusy hw st).2.obj._currentcursorposition = 0 ∧
    ∃ s, writeReadBack hw (fuel + 1) v st = .ok (0, s) ∧
      (v = 0 → write hw (fuel + 1) v st =
        .ok (assign (fun o =>
          { o with _currentbufferindex := s.obj._currentbufferindex % 256 }) s)) ∧
      (v ≠ 0 → ∃ y z,
        rewriteAll hw (assign (fun o => { o with _isResetting := true }) s) = .ok y ∧
        recover hw s = .ok z ∧
        write hw (fuel + 1) v st =
          .ok (assign (fun o =>
            { o with _currentbufferindex := s.obj._currentbufferindex % 256 }) z)) := by
  refine ⟨fun m => receive_i2c hw m st hi2c, (isBusy_i2c hw st hi2c).1,
    by rw [(isBusy_i2c hw st hi2c).2], ?_⟩
  obtain ⟨s, hs⟩ := writeReadBack_i2c hw fuel v st hi2c hidx
  refine ⟨s, hs, ?_, ?_⟩
  · intro hv
    unfold write
    rw [hs, bind_ok]
    simp only
    rw [if_neg (by rw [hv]; exact fun h => h rfl)]
    rfl
  · intro hv
    obtain ⟨y, hy, _⟩ := rewriteAll_ok hw (assign (fun o => { o with _isResetting := true }) s)
    obtain ⟨z, hz, _⟩ := recover_ok hw s
    refine ⟨y, z, hy, hz, ?_⟩
    unfold write
    rw [hs, bind_ok]
    simp only
    rw [if_pos (Ne.symm hv), hz]
    rfl

set_option maxRecDepth 100000 in
/-- C11, at concrete inputs: the I2C object at address `0x20` after `begin(16,2,0)`, on a
host that answers 1 to every read; `write(0x41)` reads back 0 and recovers, `write(0)`
reads back 0 and does not. -/
theorem write_on_i2c_recovers_iff_nonzero_witness :
    readyI2C.obj._i2cAddr ≠ 255 ∧ readyI2C.obj._currentbufferindex < 80 ∧
    (beginCounter.ask (.digitalRead 3) 0).1 = 1 ∧
    (∃ s, writeReadBack beginCounter 1 0x41 readyI2C = .ok (0, s) ∧
      ∃ z, recover beginCounter s = .ok z ∧
        write beginCounter 1 0x41 readyI2C =
          .ok (assign (fun o =>
            { o with _currentbufferindex := s.obj._currentbufferindex % 256 }) z)) ∧
    (∃ s, writeReadBack beginCounter 1 0 readyI2C = .ok (0, s) ∧
      write beginCounter 1 0 readyI2C =
        .ok (assign (fun o =>
          { o with _currentbufferindex := s.obj._currentbufferindex % 256 }) s)) := by
  obtain ⟨_, _, _, s, hs, _, hne⟩ :=
    write_on_i2c_recovers_iff_nonzero beginCounter 0 0x41 readyI2C (by decide!) (by decide!)
  obtain ⟨_, _, _, t, ht, hzero, _⟩ :=
    write_on_i2c_recovers_iff_nonzero beginCounter 0 0 readyI2C (by decide!) (by decide!)
  obtain ⟨_, z, _, hz, hw⟩ := hne (by decide)
  exact ⟨by decide!, by decide!, rfl, ⟨s, hs, z, hz, hw⟩, ⟨t, ht, hzero rfl⟩⟩

set_option maxRecDepth 100000 in
/-- On the counting host, after `begin(16,2,0)` has called `_i2c.begin` once: `write(0)`
does not call it again, `write(0x41)` calls it once more, inside `resync4BitMode`. -/
theorem write_on_i2c_begin_count :
    worldOf (write beginCounter 1 0 readyI2C) = some 1 ∧
      worldOf (write beginCounter 1 0x41 readyI2C) = some 2 := by
  decide!

end AdafruitLiquidCrystal
